import Mathlib

/-!
# Handle-path cache and file-event post-processing of the ETW file publisher

A shallow embedding of `CacheFilePath` (`etw_qh_publisher_files.h`,
`etw_qh_publisher_files.cpp`), of the path normalisation
`EtwQhPublisherFiles::updateHardVolumeWithLogicalDrive`, of
`EtwQhPublisherFiles::providerPostProcessor` and of
`EtwQhPublisherFiles::providerPreProcessor` with its `isSupported...Event`
predicates, of the steps of one `retrievePath` call and one `addToMap` call
run by two threads, and of `EtwQhFileEventSubscriber::eventCallback`
(`etw_qh_file_events.cpp`), followed by theorems about them.

Modelling conventions:
* `uint64_t`, `size_t`, `uint32_t` values are natural numbers; no arithmetic
  is performed on them by the embedded code, only comparisons.
* `std::string` is `String`; positions count characters.
* `std::unordered_map<uint64_t, std::string>` is a list of key/value pairs
  manipulated only through `find`, `erase`, `insert`, `assign`, `index`.
* `std::vector<uint64_t>` is a list, front first.
* Undefined behaviour (`front()` of an empty vector) is `none`.
* The field parser of a record is a pair of functions; a failed extraction is
  `none`, and it leaves `providerPreProcessor`, which has no handler.
-/

namespace osquery

/-! ## `std::unordered_map<uint64_t, std::string>` -/

/-- The container type of `_fileobj_map`. -/
abbrev FileObjMap := List (Nat × String)

namespace FileObjMap

/-- The lookup `m.find(k)`: `none` stands for `m.end()`. -/
def find : FileObjMap → Nat → Option String
  | [], _ => none
  | (k', v) :: m, k => if k' = k then some v else find m k

/-- The call `m.erase(k)`: removes the entry of `k`, no effect when absent. -/
def erase (m : FileObjMap) (k : Nat) : FileObjMap :=
  m.filter (fun e => decide (e.1 ≠ k))

/-- The call `m.insert(std::make_pair(k, v))`: adds the pair only when `k` has
no entry yet; an existing entry is left as it is. -/
def insert (m : FileObjMap) (k : Nat) (v : String) : FileObjMap :=
  match find m k with
  | some _ => m
  | none => m ++ [(k, v)]

/-- The reference `m[k]` as it is obtained by `operator[]`: an absent key is
first inserted with the empty string. Returns the map and the value. -/
def index (m : FileObjMap) (k : Nat) : FileObjMap × String :=
  match find m k with
  | some v => (m, v)
  | none => (m ++ [(k, "")], "")

/-- Overwrites the value of every entry of `k`. -/
def setValue : FileObjMap → Nat → String → FileObjMap
  | [], _, _ => []
  | (k', v') :: m, k, v =>
      (if k' = k then (k', v) else (k', v')) :: setValue m k v

/-- The assignment `m[k] = v`. -/
def assign (m : FileObjMap) (k : Nat) (v : String) : FileObjMap :=
  setValue (index m k).1 k v

/-- The call `m.size()`. -/
def size (m : FileObjMap) : Nat := m.length

/-- The keys of the map. -/
def keys (m : FileObjMap) : List Nat := m.map Prod.fst

end FileObjMap

/-! ## `std::string` members used by the cache -/

namespace StdString

/-- The call `s.clear()`: the content of `s` afterwards. -/
def clear (_s : String) : String := ""

/-- The call `s.assign(v)`: the content of `s` afterwards. -/
def assign (_s : String) (v : String) : String := v

/-- The position of the first occurrence of `needle` in a character sequence,
`none` when it does not occur. -/
def findChars (needle : List Char) : List Char → Option Nat
  | [] => if needle.isEmpty then some 0 else none
  | c :: hay =>
      if needle.isPrefixOf (c :: hay) then some 0
      else (findChars needle hay).map (fun pos => pos + 1)

/-- The call `s.find(needle, 0)`: `none` stands for `std::string::npos`. -/
def find (s needle : String) : Option Nat :=
  findChars needle.data s.data

/-- The call `s.replace(pos, len, str)` for `pos` within `s`: the content of
`s` afterwards. -/
def replace (s : String) (pos len : Nat) (str : String) : String :=
  ⟨s.data.take pos ++ str.data ++ s.data.drop (pos + len)⟩

end StdString

/-! ## `CacheFilePath` -/

/-- The data members of `class CacheFilePath` (the mutex apart). -/
structure CacheFilePath where
  _max_size : Nat
  _fileobj_map : FileObjMap
  _fileobj_vec : List Nat
  deriving DecidableEq, Repr

namespace CacheFilePath

/-- The constructor `CacheFilePath()`, with the value of the constant
`MAX_FILEOBJ_CACHE` as a parameter. -/
def new (MAX_FILEOBJ_CACHE : Nat) : CacheFilePath :=
  { _max_size := MAX_FILEOBJ_CACHE, _fileobj_map := [], _fileobj_vec := [] }

/-- `CacheFilePath::addToMap`. The result is `none` when the call reaches
`_fileobj_vec.front()` on an empty vector. -/
def addToMap (c : CacheFilePath) (fileobj : Nat) (path : String) :
    Option CacheFilePath :=
  if c._max_size ≤ c._fileobj_map.size then
    match c._fileobj_vec with
    | [] => none
    | front :: rest =>
        some { c with
          _fileobj_map := (c._fileobj_map.erase front).insert fileobj path
          _fileobj_vec := rest ++ [fileobj] }
  else
    if (c._fileobj_map.find fileobj).isSome then
      some { c with
        _fileobj_map := c._fileobj_map.assign fileobj path
        _fileobj_vec := c._fileobj_vec.erase fileobj ++ [fileobj] }
    else
      some { c with
        _fileobj_map := c._fileobj_map.insert fileobj path
        _fileobj_vec := c._fileobj_vec ++ [fileobj] }

/-- `CacheFilePath::retrievePath`: the cache after the call and the content
of the output argument `path` after the call. -/
def retrievePath (c : CacheFilePath) (fileobj : Nat) (path : String) :
    CacheFilePath × String :=
  if (c._fileobj_map.find fileobj).isNone then
    (c, StdString.clear path)
  else
    ({ c with _fileobj_map := (c._fileobj_map.index fileobj).1 },
      StdString.assign path (c._fileobj_map.index fileobj).2)

/-- A sequence of `addToMap` calls, in order. -/
def addAll : CacheFilePath → List (Nat × String) → Option CacheFilePath
  | c, [] => some c
  | c, (h, p) :: calls => (c.addToMap h p).bind (fun c' => addAll c' calls)

/-- The states reachable from the empty cache of capacity `C` by `addToMap`
calls. -/
def Reachable (C : Nat) (c : CacheFilePath) : Prop :=
  ∃ calls : List (Nat × String), addAll (new C) calls = some c

/-- The calls put(0,"a"), put(1,"a"), ..., put(n-1,"a"): `n` distinct handles. -/
def distinctCalls (n : Nat) : List (Nat × String) :=
  (List.range n).map (fun i => (i, "a"))

end CacheFilePath

/-! ## Event data (`etw_data_event.h`) -/

/-- The Windows `FILETIME`. -/
structure FILETIME where
  dwLowDateTime : Nat := 0
  dwHighDateTime : Nat := 0
  deriving DecidableEq, Repr

/-- `struct EtwDeletePathData`. -/
structure EtwDeletePathData where
  ProcessId : Nat := 0
  FilePath : String := ""
  EventTime : FILETIME := {}
  UserDataReady : Bool := false
  deriving DecidableEq, Repr

/-- `struct EtwNameDeleteData`. -/
structure EtwNameDeleteData where
  ProcessId : Nat := 0
  FileName : String := ""
  EventTime : FILETIME := {}
  UserDataReady : Bool := false
  deriving DecidableEq, Repr

/-- `struct EtwCreateNewFileData`. -/
structure EtwCreateNewFileData where
  ProcessId : Nat := 0
  FileName : String := ""
  EventTime : FILETIME := {}
  UserDataReady : Bool := false
  deriving DecidableEq, Repr

/-- `struct EtwCreateData`. -/
structure EtwCreateData where
  ProcessId : Nat := 0
  FileName : String := ""
  EventTime : FILETIME := {}
  FileObj : Nat
  UserDataReady : Bool := false
  deriving DecidableEq, Repr

/-- `struct EtwRenamePathData`. -/
structure EtwRenamePathData where
  ProcessId : Nat := 0
  OldFilePath : String := ""
  RenamedFilePath : String := ""
  EventTime : FILETIME := {}
  FileObj : Nat
  UserDataReady : Bool := false
  deriving DecidableEq, Repr

/-- `struct EtwProcessStartData`. -/
structure EtwProcessStartData where
  ProcessId : Nat := 0
  ParentProcessId : Nat := 0
  CreateTime : FILETIME := {}
  SessionId : Nat := 0
  Flags : Nat := 0
  ImageName : String := ""
  Cmdline : String := ""
  MandatoryLabelSid : String := ""
  UserSid : String := ""
  UserName : String := ""
  TokenElevationType : Nat := 0
  TokenElevationTypeInfo : String := ""
  TokenIsElevated : Nat := 0
  ProcessSequenceNumber : Nat := 0
  ParentProcessSequenceNumber : Nat := 0
  KernelDataReady : Bool := false
  UserDataReady : Bool := false
  deriving DecidableEq, Repr

/-- `struct EtwProcessStopData`. -/
structure EtwProcessStopData where
  ProcessId : Nat := 0
  ParentProcessId : Nat := 0
  ExitCode : Int := 0
  Flags : Nat := 0
  ImageName : String := ""
  SessionId : Nat := 0
  Cmdline : String := ""
  UserSid : String := ""
  UserName : String := ""
  deriving DecidableEq, Repr

/-- `EtwPayloadVariant`: one alternative per payload reference type, in the
order of the `std::variant`; a reference is a `std::shared_ptr`, `none` being
the null pointer. -/
inductive EtwPayloadVariant where
  | monostate
  | EtwProcStartDataRef (ref : Option EtwProcessStartData)
  | EtwProcStopDataRef (ref : Option EtwProcessStopData)
  | EtwCreateNewFileDataRef (ref : Option EtwCreateNewFileData)
  | EtwNameDeleteDataRef (ref : Option EtwNameDeleteData)
  | EtwCreateDataRef (ref : Option EtwCreateData)
  | EtwRenamePathDataRef (ref : Option EtwRenamePathData)
  | EtwDeletePathDataRef (ref : Option EtwDeletePathData)
  deriving DecidableEq, Repr

/-- `enum class EtwEventType`. -/
inductive EtwEventType where
  | Invalid
  | ProcessStart
  | ProcessStop
  | CreateNewFile
  | NameDelete
  | Create
  | RenamePath
  | DeletePath
  deriving DecidableEq, Repr

/-- The members of the Windows `EVENT_HEADER` that the publisher and the
table subscriber read: `ProcessId`, `TimeStamp` (`LowPart`, `HighPart`) and
`EventDescriptor` (`Id`, `Version`). -/
structure EVENT_HEADER where
  ProcessId : Nat := 0
  TimeStampLowPart : Nat := 0
  TimeStampHighPart : Nat := 0
  EventDescriptorId : Nat := 0
  EventDescriptorVersion : Nat := 0
  deriving DecidableEq, Repr

/-- `struct EtwHeaderData`; the member `Type` is named `Type_` here. -/
structure EtwHeaderData where
  RawHeader : EVENT_HEADER := {}
  Type_ : EtwEventType := EtwEventType.Invalid
  TypeInfo : String := ""
  WinTimestamp : Nat := 0
  UnixTimestamp : Int := 0
  deriving DecidableEq, Repr

/-- `struct EtwEventData`. -/
structure EtwEventData where
  Header : EtwHeaderData := {}
  Payload : EtwPayloadVariant := EtwPayloadVariant.monostate
  deriving DecidableEq, Repr

/-! ## `EtwQhPublisherFiles` -/

/-- The type of `hardVolumeDrives_`: the entries of the
`std::unordered_map<std::string, std::string>` (hard volume, logical drive),
listed in the iteration order of the container. -/
abbrev HardVolumeDriveCollection := List (String × String)

/-- `EtwQhPublisherFiles::updateHardVolumeWithLogicalDrive`: the content of
`path` after the call. -/
def updateHardVolumeWithLogicalDrive :
    HardVolumeDriveCollection → String → String
  | [], path => path
  | (hardVolume, logicalDrive) :: rest, path =>
      match StdString.find path hardVolume with
      | some pos => StdString.replace path pos hardVolume.length logicalDrive
      | none => updateHardVolumeWithLogicalDrive rest path

/-- What `providerPostProcessor` reads and writes besides its argument: the
global `g_cacheFilePath`, and the events handed to `fire`, oldest first. -/
structure PublisherState where
  g_cacheFilePath : CacheFilePath
  fired : List EtwEventData
  deriving DecidableEq, Repr

/-- `EtwQhPublisherFiles::providerPostProcessor` for a publisher whose
`hardVolumeDrives_` is given. The payload is updated through its shared
pointer, so the event handed to `fire` carries the updated payload. The
result is `none` when `addToMap` has no defined result. -/
def providerPostProcessor (hardVolumeDrives_ : HardVolumeDriveCollection)
    (s : PublisherState) (eventData : EtwEventData) : Option PublisherState :=
  if eventData.Header.Type_ ≠ EtwEventType.CreateNewFile ∧
      eventData.Header.Type_ ≠ EtwEventType.NameDelete ∧
      eventData.Header.Type_ ≠ EtwEventType.Create ∧
      eventData.Header.Type_ ≠ EtwEventType.RenamePath ∧
      eventData.Header.Type_ ≠ EtwEventType.DeletePath then
    some s
  else if eventData.Header.Type_ = EtwEventType.CreateNewFile then
    match eventData.Payload with
    | .EtwCreateNewFileDataRef none => some s
    | .EtwCreateNewFileDataRef (some createNewFileData) =>
        let createNewFileData := { createNewFileData with
          FileName := updateHardVolumeWithLogicalDrive hardVolumeDrives_
            createNewFileData.FileName }
        some { s with fired := s.fired ++ [{ eventData with
          Payload := .EtwCreateNewFileDataRef (some createNewFileData) }] }
    | _ => some s
  else if eventData.Header.Type_ = EtwEventType.NameDelete then
    match eventData.Payload with
    | .EtwNameDeleteDataRef none => some s
    | .EtwNameDeleteDataRef (some deletePathData) =>
        let deletePathData := { deletePathData with
          FileName := updateHardVolumeWithLogicalDrive hardVolumeDrives_
            deletePathData.FileName }
        some { s with fired := s.fired ++ [{ eventData with
          Payload := .EtwNameDeleteDataRef (some deletePathData) }] }
    | _ => some s
  else if eventData.Header.Type_ = EtwEventType.Create then
    match eventData.Payload with
    | .EtwCreateDataRef none => some s
    | .EtwCreateDataRef (some createData) =>
        let createData := { createData with
          FileName := updateHardVolumeWithLogicalDrive hardVolumeDrives_
            createData.FileName }
        (s.g_cacheFilePath.addToMap createData.FileObj createData.FileName).map
          (fun cache => { s with g_cacheFilePath := cache })
    | _ => some s
  else if eventData.Header.Type_ = EtwEventType.RenamePath then
    match eventData.Payload with
    | .EtwRenamePathDataRef none => some s
    | .EtwRenamePathDataRef (some renameData) =>
        let renameData := { renameData with
          RenamedFilePath := updateHardVolumeWithLogicalDrive hardVolumeDrives_
            renameData.RenamedFilePath }
        let retrieved :=
          s.g_cacheFilePath.retrievePath renameData.FileObj renameData.OldFilePath
        let renameData := { renameData with OldFilePath := retrieved.2 }
        some { g_cacheFilePath := retrieved.1
               fired := s.fired ++ [{ eventData with
                 Payload := .EtwRenamePathDataRef (some renameData) }] }
    | _ => some s
  else if eventData.Header.Type_ = EtwEventType.DeletePath then
    match eventData.Payload with
    | .EtwDeletePathDataRef none => some s
    | .EtwDeletePathDataRef (some delPathData) =>
        let delPathData := { delPathData with
          FilePath := updateHardVolumeWithLogicalDrive hardVolumeDrives_
            delPathData.FilePath }
        some { s with fired := s.fired ++ [{ eventData with
          Payload := .EtwDeletePathDataRef (some delPathData) }] }
    | _ => some s
  else
    some s

/-- A sequence of `providerPostProcessor` calls, in order. -/
def postProcessAll (hardVolumeDrives_ : HardVolumeDriveCollection) :
    PublisherState → List EtwEventData → Option PublisherState
  | s, [] => some s
  | s, eventData :: events =>
      (providerPostProcessor hardVolumeDrives_ s eventData).bind
        (fun s' => postProcessAll hardVolumeDrives_ s' events)

/-! ## `EtwQhPublisherFiles::providerPreProcessor` -/

/-- The publisher constant `etwCreateNewFileID`. -/
def etwCreateNewFileID : Nat := 30

/-- The publisher constant `etwNameDeleteID`. -/
def etwNameDeleteID : Nat := 11

/-- The publisher constant `etwCreateID`. -/
def etwCreateID : Nat := 12

/-- The publisher constant `etwRenamePathID`. -/
def etwRenamePathID : Nat := 27

/-- The publisher constant `etwDeletePathID`. -/
def etwDeletePathID : Nat := 26

/-- `EtwQhPublisherFiles::isSupportedDeletePathEvent`. -/
def isSupportedDeletePathEvent (header : EVENT_HEADER) : Bool :=
  header.EventDescriptorId == etwDeletePathID

/-- `EtwQhPublisherFiles::isSupportedRenamePathEvent`. -/
def isSupportedRenamePathEvent (header : EVENT_HEADER) : Bool :=
  header.EventDescriptorId == etwRenamePathID

/-- `EtwQhPublisherFiles::isSupportedCreateEvent`. -/
def isSupportedCreateEvent (header : EVENT_HEADER) : Bool :=
  header.EventDescriptorId == etwCreateID

/-- `EtwQhPublisherFiles::isSupportedCreateNewFileEvent`. -/
def isSupportedCreateNewFileEvent (header : EVENT_HEADER) : Bool :=
  header.EventDescriptorId == etwCreateNewFileID

/-- `EtwQhPublisherFiles::isSupportedNameDeleteEvent`. -/
def isSupportedNameDeleteEvent (header : EVENT_HEADER) : Bool :=
  header.EventDescriptorId == etwNameDeleteID

/-- `EtwQhPublisherFiles::isSupportedEvent`. -/
def isSupportedEvent (header : EVENT_HEADER) : Bool :=
  isSupportedNameDeleteEvent header ||
    isSupportedCreateNewFileEvent header ||
    isSupportedCreateEvent header ||
    isSupportedRenamePathEvent header ||
    isSupportedDeletePathEvent header

/-- The Windows `EVENT_RECORD`, of which the pre-processor reads the
`EventHeader` directly; the user data is read through the field parser. -/
structure EVENT_RECORD where
  EventHeader : EVENT_HEADER := {}
  deriving DecidableEq, Repr

/-- The field parser `krabs::parser parser(schema)` of one record, an external
capability: `parseWString name` is `parser.parse<std::wstring>(name)` and
`parsePointer name` is `parser.parse<krabs::pointer>(name).address`. The value
`none` is a failed extraction (property absent or of another type), which the
parser signals by throwing. -/
structure FieldAccess where
  parseWString : String → Option String
  parsePointer : String → Option Nat

/-- `EtwQhPublisherFiles::providerPreProcessor`, with the string conversion
`wstringToString` as a parameter. The result `some (some e)` is a return after
the call `dispatchETWEvents(e)`, `some none` a return without that call, and
`none` a failed extraction leaving the function, which has no handler.
Allocations succeed. -/
def providerPreProcessor (wstringToString : String → String)
    (rawEvent : EVENT_RECORD) (parser : FieldAccess) :
    Option (Option EtwEventData) :=
  let eventHeader := rawEvent.EventHeader
  if !isSupportedEvent eventHeader then
    some none
  else
    let newEvent : EtwEventData := {}
    let eventShouldBeDispatched := false
    (if isSupportedCreateNewFileEvent eventHeader then
      (parser.parseWString "FileName").map (fun fileName =>
        (({ Header := { newEvent.Header with Type_ := EtwEventType.CreateNewFile }
            Payload := .EtwCreateNewFileDataRef (some
              { ProcessId := eventHeader.ProcessId
                EventTime :=
                  { dwLowDateTime := eventHeader.TimeStampLowPart
                    dwHighDateTime := eventHeader.TimeStampHighPart }
                FileName := wstringToString fileName
                UserDataReady := true }) } : EtwEventData), true))
    else
      some (newEvent, eventShouldBeDispatched)).bind
    fun (newEvent, eventShouldBeDispatched) =>
    (if isSupportedNameDeleteEvent eventHeader then
      (parser.parseWString "FileName").map (fun fileName =>
        (({ Header := { newEvent.Header with Type_ := EtwEventType.NameDelete }
            Payload := .EtwNameDeleteDataRef (some
              { ProcessId := eventHeader.ProcessId
                EventTime :=
                  { dwLowDateTime := eventHeader.TimeStampLowPart
                    dwHighDateTime := eventHeader.TimeStampHighPart }
                FileName := wstringToString fileName
                UserDataReady := true }) } : EtwEventData), true))
    else
      some (newEvent, eventShouldBeDispatched)).bind
    fun (newEvent, eventShouldBeDispatched) =>
    (if isSupportedCreateEvent eventHeader then
      (parser.parseWString "FileName").bind (fun fileName =>
        (parser.parsePointer "FileObject").map (fun address =>
          (({ Header := { newEvent.Header with Type_ := EtwEventType.Create }
              Payload := .EtwCreateDataRef (some
                { ProcessId := eventHeader.ProcessId
                  EventTime :=
                    { dwLowDateTime := eventHeader.TimeStampLowPart
                      dwHighDateTime := eventHeader.TimeStampHighPart }
                  FileName := wstringToString fileName
                  FileObj := address
                  UserDataReady := true }) } : EtwEventData), true)))
    else
      some (newEvent, eventShouldBeDispatched)).bind
    fun (newEvent, eventShouldBeDispatched) =>
    (if isSupportedRenamePathEvent eventHeader then
      (parser.parseWString "FilePath").bind (fun filePath =>
        (parser.parsePointer "FileObject").map (fun address =>
          (({ Header := { newEvent.Header with Type_ := EtwEventType.RenamePath }
              Payload := .EtwRenamePathDataRef (some
                { ProcessId := eventHeader.ProcessId
                  EventTime :=
                    { dwLowDateTime := eventHeader.TimeStampLowPart
                      dwHighDateTime := eventHeader.TimeStampHighPart }
                  RenamedFilePath := wstringToString filePath
                  FileObj := address
                  UserDataReady := true }) } : EtwEventData), true)))
    else
      some (newEvent, eventShouldBeDispatched)).bind
    fun (newEvent, eventShouldBeDispatched) =>
    (if isSupportedDeletePathEvent eventHeader then
      (parser.parseWString "FilePath").map (fun filePath =>
        (({ Header := { newEvent.Header with Type_ := EtwEventType.DeletePath }
            Payload := .EtwDeletePathDataRef (some
              { ProcessId := eventHeader.ProcessId
                EventTime :=
                  { dwLowDateTime := eventHeader.TimeStampLowPart
                    dwHighDateTime := eventHeader.TimeStampHighPart }
                FilePath := wstringToString filePath
                UserDataReady := true }) } : EtwEventData), true))
    else
      some (newEvent, eventShouldBeDispatched)).bind
    fun (newEvent, eventShouldBeDispatched) =>
    if !eventShouldBeDispatched then
      some none
    else
      some (some { newEvent with
        Header := { newEvent.Header with RawHeader := rawEvent.EventHeader } })

/-- One raw record through both callbacks: the pre-processor and, for the
event it dispatches, the post-processor. The function `deliver` stands for
what the ETW controller does to a dispatched event before it calls the
post-processor. -/
def processRecord (wstringToString : String → String)
    (deliver : EtwEventData → EtwEventData)
    (hardVolumeDrives_ : HardVolumeDriveCollection) (s : PublisherState)
    (rawEvent : EVENT_RECORD) (parser : FieldAccess) : Option PublisherState :=
  match providerPreProcessor wstringToString rawEvent parser with
  | none => none
  | some none => some s
  | some (some newEvent) =>
      providerPostProcessor hardVolumeDrives_ s (deliver newEvent)

/-- The five type checks of `providerPreProcessor` with the event type that
the block of each check assigns, in the order of the source. -/
def typeChecks : List ((EVENT_HEADER → Bool) × EtwEventType) :=
  [ (isSupportedCreateNewFileEvent, EtwEventType.CreateNewFile),
    (isSupportedNameDeleteEvent, EtwEventType.NameDelete),
    (isSupportedCreateEvent, EtwEventType.Create),
    (isSupportedRenamePathEvent, EtwEventType.RenamePath),
    (isSupportedDeletePathEvent, EtwEventType.DeletePath) ]

/-- The event type left in `newEvent->Header.Type` by a sequence of
independent `if (check(header)) { Header.Type = type; ... }` blocks run in the
given order, starting from the default `Invalid`. -/
def assignedType (checks : List ((EVENT_HEADER → Bool) × EtwEventType))
    (header : EVENT_HEADER) : EtwEventType :=
  checks.foldl (fun type check => if check.1 header then check.2 else type)
    EtwEventType.Invalid

/-! ## Interleaving of a `retrievePath` call with an `addToMap` call -/

/-- Where a `retrievePath` call stands: before the `find` (line 443), after a
`find` that located the key and before `_fileobj_map[fileobj]` (line 447), or
returned with the content of `path`. -/
inductive RetrievePathAt where
  | atFind
  | atIndex
  | returned (path : String)
  deriving DecidableEq, Repr

/-- Where an `addToMap` call stands: before `WriteLock lock(cache_mutex)`
(line 412), holding the lock before the body (lines 414-439), after the body
and before the lock is released at the end of the scope, or returned. -/
inductive AddToMapAt where
  | atLock
  | atBody
  | atUnlock
  | returned
  deriving DecidableEq, Repr

/-- The cache shared by two threads, the state of `cache_mutex` (`true` when
held), and where the call of each thread stands. -/
structure Interleaving where
  cache : CacheFilePath
  cache_mutex : Bool
  put : AddToMapAt
  get : RetrievePathAt
  deriving DecidableEq, Repr

/-- The two threads: one runs `addToMap`, the other `retrievePath`. -/
inductive Thread where
  | put
  | get
  deriving DecidableEq, Repr

/-- One step of the thread that runs `addToMap(fileobj, path)`: it takes the
lock when the lock is free (and waits otherwise), runs the body while it
holds the lock, releases the lock. The result is `none` when the body has no
defined result. -/
def stepAddToMap (fileobj : Nat) (path : String) (t : Interleaving) :
    Option Interleaving :=
  match t.put with
  | .atLock =>
      if t.cache_mutex then some t
      else some { t with cache_mutex := true, put := .atBody }
  | .atBody =>
      (t.cache.addToMap fileobj path).map
        (fun cache => { t with cache := cache, put := .atUnlock })
  | .atUnlock => some { t with cache_mutex := false, put := .returned }
  | .returned => some t

/-- One step of the thread that runs `retrievePath(fileobj, path)`, one
container access per step. The function takes no lock, so its steps do not
depend on `cache_mutex`. -/
def stepRetrievePath (fileobj : Nat) (path : String) (t : Interleaving) :
    Interleaving :=
  match t.get with
  | .atFind =>
      if (t.cache._fileobj_map.find fileobj).isNone then
        { t with get := .returned (StdString.clear path) }
      else
        { t with get := .atIndex }
  | .atIndex =>
      { t with
        cache := { t.cache with
          _fileobj_map := (t.cache._fileobj_map.index fileobj).1 }
        get := .returned
          (StdString.assign path (t.cache._fileobj_map.index fileobj).2) }
  | .returned _ => t

/-- The steps of the two threads in the order of a schedule: the thread of
`put` runs `addToMap(putObj, putPath)`, the thread of `get` runs
`retrievePath(getObj, getPath)`. -/
def runSchedule (putObj : Nat) (putPath : String) (getObj : Nat)
    (getPath : String) : Interleaving → List Thread → Option Interleaving
  | t, [] => some t
  | t, Thread.put :: schedule =>
      (stepAddToMap putObj putPath t).bind
        (fun t' => runSchedule putObj putPath getObj getPath t' schedule)
  | t, Thread.get :: schedule =>
      runSchedule putObj putPath getObj getPath
        (stepRetrievePath getObj getPath t) schedule

/-! ## `EtwQhFileEventSubscriber` (`etw_qh_file_events.cpp`) -/

/-- The macro `SYSTEM_PID`. -/
def SYSTEM_PID : Nat := 4

/-- The type `Row`, a map from column name to value, as the list of its
entries. -/
abbrev Row := List (String × String)

namespace Row

/-- The assignment `row[column] = value`. -/
def set (row : Row) (column value : String) : Row :=
  row.filter (fun e => decide (e.1 ≠ column)) ++ [(column, value)]

/-- The value of a column, `none` when the row has no such column. -/
def get : Row → String → Option String
  | [], _ => none
  | (c, v) :: row, column => if c = column then some v else get row column

end Row

/-- The result type `Status`: success, or failure with its message. -/
inductive Status where
  | success
  | failure (message : String)
  deriving DecidableEq, Repr

/-- `struct EtwQhFileEventContext`; `data` is a shared pointer, `none` being
the null pointer. -/
structure EtwQhFileEventContext where
  data : Option EtwEventData
  deriving DecidableEq, Repr

/-- `EtwQhFileEventSubscriber::eventCallback`: the status returned and the
calls `addBatch(rowList, time)` made so far, oldest first. The context is a
shared pointer, `none` being the null pointer. The column macros `SQL_TEXT`
and `BIGINT` are parameters; the subscription context is not read. -/
def eventCallback (SQL_TEXT : String → String) (BIGINT : Int → String)
    (batches : List (List Row × Int))
    (event_context : Option EtwQhFileEventContext) :
    Status × List (List Row × Int) :=
  match event_context with
  | none => (Status.failure "Invalid event context", batches)
  | some context =>
  match context.data with
  | none => (Status.failure "Invalid event context", batches)
  | some data =>
    let newRow : Row := []
    let eventHeader := data.Header
    if SYSTEM_PID ≠ eventHeader.RawHeader.ProcessId then
      (Status.success, batches)
    else
      let newRow := newRow.set "type" (SQL_TEXT eventHeader.TypeInfo)
      let newRow := newRow.set "datetime" (BIGINT eventHeader.UnixTimestamp)
      let newRow := newRow.set "time_windows" (BIGINT eventHeader.WinTimestamp)
      let newRow := newRow.set "pid" (BIGINT eventHeader.RawHeader.ProcessId)
      if eventHeader.Type_ = EtwEventType.CreateNewFile then
        match data.Payload with
        | .EtwCreateNewFileDataRef none =>
            (Status.failure "Event payload was null", batches)
        | .EtwCreateNewFileDataRef (some eventPayload) =>
            let newRow := newRow.set "path" (SQL_TEXT eventPayload.FileName)
            (Status.success, batches ++ [([newRow], eventHeader.UnixTimestamp)])
        | _ => (Status.failure "Invalid event payload", batches)
      else if eventHeader.Type_ = EtwEventType.NameDelete then
        match data.Payload with
        | .EtwNameDeleteDataRef none =>
            (Status.failure "Event payload was null", batches)
        | .EtwNameDeleteDataRef (some eventPayload) =>
            let newRow := newRow.set "path" (SQL_TEXT eventPayload.FileName)
            (Status.success, batches ++ [([newRow], eventHeader.UnixTimestamp)])
        | _ => (Status.failure "Invalid event payload", batches)
      else if eventHeader.Type_ = EtwEventType.RenamePath then
        match data.Payload with
        | .EtwRenamePathDataRef none =>
            (Status.failure "Event payload was null", batches)
        | .EtwRenamePathDataRef (some eventPayload) =>
            let newRow :=
              newRow.set "new_path" (SQL_TEXT eventPayload.RenamedFilePath)
            let newRow := newRow.set "path" (SQL_TEXT eventPayload.OldFilePath)
            (Status.success, batches ++ [([newRow], eventHeader.UnixTimestamp)])
        | _ => (Status.failure "Invalid event payload", batches)
      else if eventHeader.Type_ = EtwEventType.DeletePath then
        match data.Payload with
        | .EtwDeletePathDataRef none =>
            (Status.failure "Event payload was null", batches)
        | .EtwDeletePathDataRef (some eventPayload) =>
            let newRow := newRow.set "path" (SQL_TEXT eventPayload.FilePath)
            (Status.success, batches ++ [([newRow], eventHeader.UnixTimestamp)])
        | _ => (Status.failure "Invalid event payload", batches)
      else
        (Status.success, batches)

/-! ## Theorems about `CacheFilePath` -/

namespace CacheFilePath

/-- `operator[]` on a key that `find` locates leaves the map as it is. -/
theorem index_of_find_isSome (m : FileObjMap) (k : Nat)
    (hk : (m.find k).isSome = true) :
    (m.index k).1 = m ∧ some (m.index k).2 = m.find k := by
  unfold FileObjMap.index
  cases hf : m.find k with
  | none => simp [hf] at hk
  | some v => simp

/-- A sequence of calls can be split anywhere. -/
theorem addAll_append (c : CacheFilePath) (xs ys : List (Nat × String)) :
    addAll c (xs ++ ys) = (addAll c xs).bind (fun c' => addAll c' ys) := by
  induction xs generalizing c with
  | nil => simp [addAll]
  | cons x xs ih =>
    obtain ⟨h, p⟩ := x
    simp only [List.cons_append, addAll]
    cases c.addToMap h p with
    | none => simp
    | some c1 => simpa using ih c1

/-- Lookup in a map with one more entry at its end. -/
theorem find_append_single (m : FileObjMap) (k' k : Nat) (v : String) :
    FileObjMap.find (m ++ [(k', v)]) k =
      match FileObjMap.find m k with
      | some x => some x
      | none => if k' = k then some v else none := by
  induction m with
  | nil => simp [FileObjMap.find]
  | cons e m ih =>
    obtain ⟨k0, v0⟩ := e
    simp only [List.cons_append, FileObjMap.find]
    by_cases h : k0 = k
    · simp [h]
    · simp [h, ih]

/-- Erasing the key of the first entry drops that entry. -/
theorem erase_cons_self (m : FileObjMap) (f : Nat) (v : String) :
    FileObjMap.erase ((f, v) :: m) f = FileObjMap.erase m f := by
  simp [FileObjMap.erase, List.filter_cons]

/-- Erasing another key keeps the first entry. -/
theorem erase_cons_of_ne (m : FileObjMap) (k0 f : Nat) (v : String) (h : k0 ≠ f) :
    FileObjMap.erase ((k0, v) :: m) f = (k0, v) :: FileObjMap.erase m f := by
  simp [FileObjMap.erase, List.filter_cons, h]

/-- Erasing a key does not change the lookup of another key. -/
theorem find_erase_of_ne (m : FileObjMap) (f k : Nat) (h : k ≠ f) :
    FileObjMap.find (FileObjMap.erase m f) k = FileObjMap.find m k := by
  induction m with
  | nil => simp [FileObjMap.erase, FileObjMap.find]
  | cons e m ih =>
    obtain ⟨k0, v0⟩ := e
    by_cases h0 : k0 = f
    · subst h0
      have hk : ¬ k0 = k := fun hk => h hk.symm
      rw [erase_cons_self, ih]
      simp [FileObjMap.find, hk]
    · rw [erase_cons_of_ne _ _ _ _ h0]
      simp [FileObjMap.find, ih]

/-- One more distinct call. -/
theorem distinctCalls_succ (n : Nat) :
    distinctCalls (n + 1) = distinctCalls n ++ [(n, "a")] := by
  simp [distinctCalls, List.range_succ]

/-- The map holding the pairs of `distinctCalls n` stores "a" for the handles
below `n` and nothing else. -/
theorem find_distinctCalls (n k : Nat) :
    FileObjMap.find (distinctCalls n) k = if k < n then some "a" else none := by
  induction n with
  | zero => simp [distinctCalls, FileObjMap.find]
  | succ n ih =>
    rw [distinctCalls_succ, find_append_single, ih]
    by_cases h : k < n
    · simp [h, Nat.lt_succ_of_lt h]
    · by_cases h' : n = k
      · subst h'; simp
      · have : ¬ k < n + 1 := by omega
        simp [h, h', this]

/-- Up to the capacity, distinct handles are stored in call order. -/
theorem addAll_distinctCalls (C n : Nat) (hn : n ≤ C) :
    addAll (new C) (distinctCalls n) = some ⟨C, distinctCalls n, List.range n⟩ := by
  induction n with
  | zero => simp [distinctCalls, addAll, new]
  | succ n ih =>
    rw [distinctCalls_succ, addAll_append, ih (by omega)]
    have hsz : ¬ C ≤ FileObjMap.size (distinctCalls n) := by
      simp [FileObjMap.size, distinctCalls]; omega
    have hf : FileObjMap.find (distinctCalls n) n = none := by
      simp [find_distinctCalls]
    simp [addAll, addToMap, hsz, hf, FileObjMap.insert, List.range_succ]

/-- Both components of the result of `retrievePath`. -/
theorem retrievePath_eq (c : CacheFilePath) (h : Nat) (out : String) :
    c.retrievePath h out = (c, (c._fileobj_map.find h).getD "") := by
  unfold retrievePath
  cases hf : c._fileobj_map.find h with
  | none => simp [StdString.clear]
  | some v => simp [StdString.assign, FileObjMap.index, hf]

/-- The missing key check of the at-capacity branch shows for every capacity
from 2 on: after `C` puts of distinct handles the cache is full, and a put of
the last handle with a new path leaves its old path in place. -/
theorem addToMap_stale_path_any_capacity (C : Nat) (hC : 2 ≤ C) :
    addAll (new C) (distinctCalls C) = some ⟨C, distinctCalls C, List.range C⟩
    ∧ FileObjMap.find (distinctCalls C) (C - 1) = some "a"
    ∧ ∃ c' : CacheFilePath,
        addToMap ⟨C, distinctCalls C, List.range C⟩ (C - 1) "c" = some c'
        ∧ (c'.retrievePath (C - 1) "").2 = "a" := by
  have hfind : FileObjMap.find (distinctCalls C) (C - 1) = some "a" := by
    rw [find_distinctCalls]; simp; omega
  refine ⟨addAll_distinctCalls C C le_rfl, hfind, ?_⟩
  obtain ⟨n, rfl⟩ : ∃ n, C = n + 2 := ⟨C - 2, by omega⟩
  have hsz : n + 2 ≤ FileObjMap.size (distinctCalls (n + 2)) := by
    simp [FileObjMap.size, distinctCalls]
  have hfe : FileObjMap.find (FileObjMap.erase (distinctCalls (n + 2)) 0) (n + 2 - 1)
      = some "a" := by
    rw [find_erase_of_ne _ _ _ (by omega), hfind]
  have hfe' : FileObjMap.find (FileObjMap.erase (distinctCalls (n + 2)) 0) (n + 1)
      = some "a" := hfe
  refine ⟨⟨n + 2, FileObjMap.erase (distinctCalls (n + 2)) 0,
    (List.range (n + 1)).map Nat.succ ++ [n + 2 - 1]⟩, ?_, ?_⟩
  · simp only [addToMap, hsz, if_true, List.range_succ_eq_map (n + 1)]
    simp [FileObjMap.insert, hfe']
  · rw [retrievePath_eq]
    simp [hfe']

/-- C1, capacity invariant. The code breaks it: with capacity 2 the calls
put(1,"a"), put(2,"b"), put(2,"c"), put(3,"x"), put(4,"y"), put(5,"z") on the
empty cache leave three entries in the map, so "the map never holds more than
C entries after a sequence of puts" is false. -/
theorem addToMap_exceeds_capacity :
    addAll (new 2) [(1, "a"), (2, "b"), (2, "c"), (3, "x"), (4, "y"), (5, "z")]
      = some ⟨2, [(3, "x"), (4, "y"), (5, "z")], [3, 4, 5]⟩
    ∧ ¬ (∀ (C : Nat) (calls : List (Nat × String)) (c : CacheFilePath),
          1 ≤ C → addAll (new C) calls = some c → c._fileobj_map.size ≤ C) := by
  refine ⟨by decide, fun hall => ?_⟩
  have h := hall 2 [(1, "a"), (2, "b"), (2, "c"), (3, "x"), (4, "y"), (5, "z")]
    ⟨2, [(3, "x"), (4, "y"), (5, "z")], [3, 4, 5]⟩ (by decide) (by decide)
  revert h
  decide

/-- C2, put replaces the value. The code breaks it: with capacity 2, after
put(1,"a"), put(2,"b") the call put(2,"c") takes the at-capacity branch, whose
`insert` keeps the entry of 2, and get(2) still returns "b". -/
theorem addToMap_keeps_old_path_at_capacity :
    addAll (new 2) [(1, "a"), (2, "b")] = some ⟨2, [(1, "a"), (2, "b")], [1, 2]⟩
    ∧ addToMap ⟨2, [(1, "a"), (2, "b")], [1, 2]⟩ 2 "c"
        = some ⟨2, [(2, "b")], [2, 2]⟩
    ∧ (retrievePath ⟨2, [(2, "b")], [2, 2]⟩ 2 "").2 = "b"
    ∧ ¬ (∀ (C : Nat) (c c' : CacheFilePath) (h : Nat) (p out : String),
          1 ≤ C → Reachable C c → c.addToMap h p = some c' →
          (c'.retrievePath h out).2 = p) := by
  refine ⟨by decide, by decide, by decide, fun hall => ?_⟩
  have h := hall 2 ⟨2, [(1, "a"), (2, "b")], [1, 2]⟩ ⟨2, [(2, "b")], [2, 2]⟩
    2 "c" "" (by decide) ⟨[(1, "a"), (2, "b")], by decide⟩ (by decide)
  revert h
  decide

/-- C3, eviction of the least-recently-used entry. The code breaks it: with
capacity 2, after put(1,"a"), put(2,"b"), put(2,"c"), put(3,"x"), put(4,"y")
the map holds the 2 handles 3 and 4, the recency order is 2, 3, 4 and handle 2
is not stored; put(2,"p") then leaves the former front handle 2 stored. -/
theorem addToMap_front_still_stored :
    addAll (new 2) [(1, "a"), (2, "b"), (2, "c"), (3, "x"), (4, "y")]
      = some ⟨2, [(3, "x"), (4, "y")], [2, 3, 4]⟩
    ∧ addToMap ⟨2, [(3, "x"), (4, "y")], [2, 3, 4]⟩ 2 "p"
        = some ⟨2, [(3, "x"), (4, "y"), (2, "p")], [3, 4, 2]⟩
    ∧ (retrievePath ⟨2, [(3, "x"), (4, "y"), (2, "p")], [3, 4, 2]⟩ 2 "").2 = "p"
    ∧ ¬ (∀ (C : Nat) (c c' : CacheFilePath) (h front : Nat) (p out : String),
          1 ≤ C → Reachable C c → c._fileobj_map.size = C →
          c._fileobj_map.find h = none → c._fileobj_vec.head? = some front →
          c.addToMap h p = some c' →
          c'._fileobj_map.find front = none
          ∧ (c'.retrievePath front out).2 = ""
          ∧ c'._fileobj_map.find h = some p
          ∧ c'._fileobj_vec.getLast? = some h) := by
  refine ⟨by decide, by decide, by decide, fun hall => ?_⟩
  have h := hall 2 ⟨2, [(3, "x"), (4, "y")], [2, 3, 4]⟩
    ⟨2, [(3, "x"), (4, "y"), (2, "p")], [3, 4, 2]⟩ 2 2 "p" "" (by decide)
    ⟨[(1, "a"), (2, "b"), (2, "c"), (3, "x"), (4, "y")], by decide⟩
    (by decide) (by decide) (by decide) (by decide)
  revert h
  decide

/-- C4, promote-on-write without duplication. The code breaks it: with
capacity 2, after put(1,"a"), put(2,"b") handle 2 is stored, and put(2,"c")
leaves the recency order 2, 2, in which handle 2 occurs twice. -/
theorem addToMap_duplicates_handle :
    addAll (new 2) [(1, "a"), (2, "b")] = some ⟨2, [(1, "a"), (2, "b")], [1, 2]⟩
    ∧ addToMap ⟨2, [(1, "a"), (2, "b")], [1, 2]⟩ 2 "c"
        = some ⟨2, [(2, "b")], [2, 2]⟩
    ∧ List.count 2 [2, 2] = 2
    ∧ ¬ (∀ (C : Nat) (c c' : CacheFilePath) (h : Nat) (p : String),
          1 ≤ C → Reachable C c → (c._fileobj_map.find h).isSome = true →
          c.addToMap h p = some c' →
          c'._fileobj_vec.count h = 1 ∧ c'._fileobj_vec.getLast? = some h) := by
  refine ⟨by decide, by decide, by decide, fun hall => ?_⟩
  have h := hall 2 ⟨2, [(1, "a"), (2, "b")], [1, 2]⟩ ⟨2, [(2, "b")], [2, 2]⟩
    2 "c" (by decide) ⟨[(1, "a"), (2, "b")], by decide⟩ (by decide) (by decide)
  revert h
  decide

/-- C5, key-set / recency-order agreement. The code breaks it: with capacity
2, after put(1,"a"), put(2,"b"), put(2,"c"), put(3,"x"), put(4,"y") the recency
order is 2, 3, 4 while the keys of the map are 3 and 4: handle 2 is in the
recency order and not a key. -/
theorem addToMap_vec_not_keys :
    addAll (new 2) [(1, "a"), (2, "b"), (2, "c"), (3, "x"), (4, "y")]
      = some ⟨2, [(3, "x"), (4, "y")], [2, 3, 4]⟩
    ∧ ¬ (∀ (C : Nat) (calls : List (Nat × String)) (c : CacheFilePath) (k : Nat),
          1 ≤ C → addAll (new C) calls = some c →
          (k ∈ c._fileobj_vec ↔ k ∈ c._fileobj_map.keys)) := by
  refine ⟨by decide, fun hall => ?_⟩
  have h := hall 2 [(1, "a"), (2, "b"), (2, "c"), (3, "x"), (4, "y")]
    ⟨2, [(3, "x"), (4, "y")], [2, 3, 4]⟩ 2 (by decide) (by decide)
  revert h
  decide

/-- C6, put evicts only for a new key at capacity. The code breaks it: with
capacity 2, after put(1,"a"), put(2,"b") handle 2 is already stored, and
put(2,"c") evicts handle 1, which was stored with path "a". -/
theorem addToMap_evicts_on_stored_key :
    addAll (new 2) [(1, "a"), (2, "b")] = some ⟨2, [(1, "a"), (2, "b")], [1, 2]⟩
    ∧ addToMap ⟨2, [(1, "a"), (2, "b")], [1, 2]⟩ 2 "c"
        = some ⟨2, [(2, "b")], [2, 2]⟩
    ∧ FileObjMap.find [(1, "a"), (2, "b")] 1 = some "a"
    ∧ FileObjMap.find [(2, "b")] 1 = none
    ∧ ¬ (∀ (C : Nat) (c c' : CacheFilePath) (h k : Nat) (p : String),
          1 ≤ C → Reachable C c →
          ((c._fileobj_map.find h).isSome = true ∨ c._fileobj_map.size < C) →
          c.addToMap h p = some c' → k ≠ h →
          (c._fileobj_map.find k).isSome = true →
          c'._fileobj_map.find k = c._fileobj_map.find k) := by
  refine ⟨by decide, by decide, by decide, by decide, fun hall => ?_⟩
  have h := hall 2 ⟨2, [(1, "a"), (2, "b")], [1, 2]⟩ ⟨2, [(2, "b")], [2, 2]⟩
    2 1 "c" (by decide) ⟨[(1, "a"), (2, "b")], by decide⟩ (Or.inl (by decide))
    (by decide) (by decide) (by decide)
  revert h
  decide

/-- C7, the promote-on-write example: on the empty cache of capacity 2 the
calls put(1,"a"), put(2,"b"), put(1,"c"), put(3,"d") succeed, and afterwards
get(2) is empty (not found), get(1) is "c", get(3) is "d", and the map and
the recency order hold exactly the handles 1 and 3. -/
theorem promote_on_write_example (out : String) :
    ∃ c : CacheFilePath,
      addAll (new 2) [(1, "a"), (2, "b"), (1, "c"), (3, "d")] = some c
      ∧ c._fileobj_map.find 2 = none
      ∧ (c.retrievePath 2 out).2 = ""
      ∧ (c.retrievePath 1 out).2 = "c"
      ∧ (c.retrievePath 3 out).2 = "d"
      ∧ c._fileobj_map.keys = [1, 3]
      ∧ c._fileobj_map.size = 2
      ∧ c._fileobj_vec = [1, 3] :=
  ⟨⟨2, [(1, "c"), (3, "d")], [1, 3]⟩, by decide, by decide, by rfl, by rfl,
    by rfl, by decide, by decide, by decide⟩

/-- C8, get result: for every cache state, handle and previous content of the
output argument, `retrievePath` yields the path the map stores for the handle
when it is a key, and the empty string when it is not. -/
theorem retrievePath_result (c : CacheFilePath) (h : Nat) (out : String) :
    (c.retrievePath h out).2 =
      match c._fileobj_map.find h with
      | some p => p
      | none => "" := by
  unfold retrievePath
  cases hf : c._fileobj_map.find h with
  | none => simp [StdString.clear]
  | some v =>
    have hi := index_of_find_isSome c._fileobj_map h (by simp [hf])
    have hv : (c._fileobj_map.index h).2 = v := by
      have := hi.2
      rw [hf] at this
      exact Option.some.inj this
    simp [StdString.assign, hv]

/-- C9, get is read-only: for every cache state, handle and output argument,
`retrievePath` leaves the capacity, the map and the recency order as they
were, whether the handle is stored or not. -/
theorem retrievePath_readonly (c : CacheFilePath) (h : Nat) (out : String) :
    (c.retrievePath h out).1 = c := by
  unfold retrievePath
  cases hf : (c._fileobj_map.find h).isNone with
  | true => simp
  | false =>
    have hs : (c._fileobj_map.find h).isSome = true := by
      cases hx : c._fileobj_map.find h with
      | none => simp [hx] at hf
      | some v => rfl
    have hi := (index_of_find_isSome c._fileobj_map h hs).1
    simp [hi]

end CacheFilePath

/-! ## Supporting lemmas: defined results of `addToMap` -/

namespace CacheFilePath

/-- Erasing a key removes its entry. -/
theorem find_erase_self (m : FileObjMap) (f : Nat) :
    FileObjMap.find (FileObjMap.erase m f) f = none := by
  induction m with
  | nil => simp [FileObjMap.erase, FileObjMap.find]
  | cons e m ih =>
    obtain ⟨k0, v0⟩ := e
    by_cases h0 : k0 = f
    · subst h0
      rw [erase_cons_self, ih]
    · rw [erase_cons_of_ne _ _ _ _ h0]
      simp [FileObjMap.find, h0, ih]

/-- Lookup after `insert`. -/
theorem find_insert (m : FileObjMap) (k' k : Nat) (v : String) :
    FileObjMap.find (FileObjMap.insert m k' v) k =
      match FileObjMap.find m k with
      | some x => some x
      | none => if k' = k then some v else none := by
  unfold FileObjMap.insert
  cases hk' : FileObjMap.find m k' with
  | none => simp only [find_append_single]
  | some x =>
    simp only
    cases hk : FileObjMap.find m k with
    | some y => rfl
    | none =>
      have hne : ¬ k' = k := by
        intro h
        rw [h, hk] at hk'
        exact Option.noConfusion hk'
      simp [hne]

/-- The first entry after overwriting the value of a key. -/
theorem setValue_cons (m : FileObjMap) (k0 k' : Nat) (v0 v : String) :
    FileObjMap.setValue ((k0, v0) :: m) k' v
      = (k0, if k0 = k' then v else v0) :: FileObjMap.setValue m k' v := by
  by_cases h : k0 = k' <;> simp [FileObjMap.setValue, h]

/-- Lookup after overwriting the value of a key. -/
theorem find_setValue (m : FileObjMap) (k' k : Nat) (v : String) :
    FileObjMap.find (FileObjMap.setValue m k' v) k =
      if k' = k then (FileObjMap.find m k).map (fun _ => v)
      else FileObjMap.find m k := by
  induction m with
  | nil => simp [FileObjMap.setValue, FileObjMap.find]
  | cons e m ih =>
    obtain ⟨k0, v0⟩ := e
    rw [setValue_cons]
    simp only [FileObjMap.find, ih]
    by_cases h0 : k0 = k' <;> by_cases h1 : k' = k <;> by_cases h2 : k0 = k <;>
      simp_all

/-- The invariant that every key of the map occurs in the recency vector. -/
theorem addToMap_keys_in_vec (c c' : CacheFilePath) (h : Nat) (p : String)
    (hinv : ∀ k, (c._fileobj_map.find k).isSome = true → k ∈ c._fileobj_vec)
    (hput : c.addToMap h p = some c') :
    c'._max_size = c._max_size ∧
      ∀ k, (c'._fileobj_map.find k).isSome = true → k ∈ c'._fileobj_vec := by
  unfold addToMap at hput
  split at hput
  · cases hv : c._fileobj_vec with
    | nil => simp [hv] at hput
    | cons front rest =>
      simp only [hv, Option.some.injEq] at hput
      subst hput
      refine ⟨rfl, fun k hk => ?_⟩
      simp only [find_insert] at hk
      by_cases hkh : k = h
      · simp [hkh]
      · by_cases hkf : k = front
        · subst hkf
          have hne : ¬ h = k := fun e => hkh e.symm
          simp [find_erase_self, hne] at hk
        · rw [find_erase_of_ne _ _ _ hkf] at hk
          have hne : ¬ h = k := fun e => hkh e.symm
          have hk' : (c._fileobj_map.find k).isSome = true := by
            cases hx : c._fileobj_map.find k with
            | none => simp [hx, hne] at hk
            | some x => rfl
          have hmem := hinv k hk'
          rw [hv] at hmem
          simp only [List.mem_cons] at hmem
          rcases hmem with hmem | hmem
          · exact absurd hmem hkf
          · simp [hmem]
  · split at hput
    · rename_i hfull hex
      simp only [Option.some.injEq] at hput
      subst hput
      refine ⟨rfl, fun k hk => ?_⟩
      by_cases hkh : k = h
      · simp [hkh]
      · have hne : ¬ h = k := fun e => hkh e.symm
        have hidx := (index_of_find_isSome c._fileobj_map h hex).1
        simp only [FileObjMap.assign, hidx, find_setValue, hne, if_false] at hk
        have hmem := hinv k hk
        simp only [List.mem_append, List.mem_singleton]
        exact Or.inl ((List.mem_erase_of_ne hkh).2 hmem)
    · simp only [Option.some.injEq] at hput
      subst hput
      refine ⟨rfl, fun k hk => ?_⟩
      simp only [find_insert] at hk
      by_cases hkh : k = h
      · simp [hkh]
      · have hne : ¬ h = k := fun e => hkh e.symm
        have hk' : (c._fileobj_map.find k).isSome = true := by
          cases hx : c._fileobj_map.find k with
          | none => simp [hx, hne] at hk
          | some x => rfl
        simp [hinv k hk']

/-- The invariant along a sequence of calls. -/
theorem addAll_keys_in_vec (calls : List (Nat × String)) (c c' : CacheFilePath)
    (hinv : ∀ k, (c._fileobj_map.find k).isSome = true → k ∈ c._fileobj_vec)
    (hrun : addAll c calls = some c') :
    c'._max_size = c._max_size ∧
      ∀ k, (c'._fileobj_map.find k).isSome = true → k ∈ c'._fileobj_vec := by
  induction calls generalizing c with
  | nil =>
    simp only [addAll, Option.some.injEq] at hrun
    subst hrun
    exact ⟨rfl, hinv⟩
  | cons x calls ih =>
    obtain ⟨h, p⟩ := x
    simp only [addAll] at hrun
    cases hstep : c.addToMap h p with
    | none => simp [hstep] at hrun
    | some c1 =>
      simp only [hstep, Option.some_bind] at hrun
      have h1 := addToMap_keys_in_vec c c1 h p hinv hstep
      have h2 := ih c1 h1.2 hrun
      exact ⟨h2.1.trans h1.1, h2.2⟩

/-- In a reachable state the capacity is the one of the constructor and every
key of the map occurs in the recency vector. -/
theorem Reachable.keys_in_vec {C : Nat} {c : CacheFilePath} (hr : Reachable C c) :
    c._max_size = C ∧
      ∀ k, (c._fileobj_map.find k).isSome = true → k ∈ c._fileobj_vec := by
  obtain ⟨calls, hrun⟩ := hr
  exact addAll_keys_in_vec calls (new C) c
    (fun k hk => by simp [new, FileObjMap.find] at hk) hrun

/-- With a capacity of at least one, `addToMap` on a state that satisfies the
invariant has a defined result. -/
theorem addToMap_isSome_of_keys_in_vec (c : CacheFilePath) (h : Nat) (p : String)
    (hcap : 1 ≤ c._max_size)
    (hinv : ∀ k, (c._fileobj_map.find k).isSome = true → k ∈ c._fileobj_vec) :
    ∃ c', c.addToMap h p = some c' := by
  unfold addToMap
  split
  · rename_i hfull
    cases hm : c._fileobj_map with
    | nil => simp [hm, FileObjMap.size] at hfull; omega
    | cons e m =>
      obtain ⟨k0, v0⟩ := e
      have hmem := hinv k0 (by simp [hm, FileObjMap.find])
      cases hv : c._fileobj_vec with
      | nil => simp [hv] at hmem
      | cons front rest => exact ⟨_, rfl⟩
  · split <;> exact ⟨_, rfl⟩

/-- With a capacity of at least one, `addToMap` on a reachable state has a
defined result. -/
theorem Reachable.addToMap_isSome {C : Nat} {c : CacheFilePath}
    (hr : Reachable C c) (hC : 1 ≤ C) (h : Nat) (p : String) :
    ∃ c', c.addToMap h p = some c' :=
  addToMap_isSome_of_keys_in_vec c h p (hr.keys_in_vec.1 ▸ hC) hr.keys_in_vec.2

end CacheFilePath

/-! ## Supporting lemmas: the branches of `providerPostProcessor` -/

/-- The CreateNewFile branch with a matching payload. -/
theorem providerPostProcessor_createNewFile (drives : HardVolumeDriveCollection)
    (s : PublisherState) (eventData : EtwEventData) (d : EtwCreateNewFileData)
    (hT : eventData.Header.Type_ = EtwEventType.CreateNewFile)
    (hP : eventData.Payload = .EtwCreateNewFileDataRef (some d)) :
    providerPostProcessor drives s eventData =
      some { s with fired := s.fired ++ [{ eventData with
        Payload := .EtwCreateNewFileDataRef (some { d with
          FileName := updateHardVolumeWithLogicalDrive drives d.FileName }) }] } := by
  simp [providerPostProcessor, hT, hP]

/-- The NameDelete branch with a matching payload. -/
theorem providerPostProcessor_nameDelete (drives : HardVolumeDriveCollection)
    (s : PublisherState) (eventData : EtwEventData) (d : EtwNameDeleteData)
    (hT : eventData.Header.Type_ = EtwEventType.NameDelete)
    (hP : eventData.Payload = .EtwNameDeleteDataRef (some d)) :
    providerPostProcessor drives s eventData =
      some { s with fired := s.fired ++ [{ eventData with
        Payload := .EtwNameDeleteDataRef (some { d with
          FileName := updateHardVolumeWithLogicalDrive drives d.FileName }) }] } := by
  simp [providerPostProcessor, hT, hP]

/-- The Create branch with a matching payload. -/
theorem providerPostProcessor_create (drives : HardVolumeDriveCollection)
    (s : PublisherState) (eventData : EtwEventData) (d : EtwCreateData)
    (hT : eventData.Header.Type_ = EtwEventType.Create)
    (hP : eventData.Payload = .EtwCreateDataRef (some d)) :
    providerPostProcessor drives s eventData =
      (s.g_cacheFilePath.addToMap d.FileObj
          (updateHardVolumeWithLogicalDrive drives d.FileName)).map
        (fun cache => { s with g_cacheFilePath := cache }) := by
  simp [providerPostProcessor, hT, hP]

/-- The RenamePath branch with a matching payload. -/
theorem providerPostProcessor_renamePath (drives : HardVolumeDriveCollection)
    (s : PublisherState) (eventData : EtwEventData) (d : EtwRenamePathData)
    (hT : eventData.Header.Type_ = EtwEventType.RenamePath)
    (hP : eventData.Payload = .EtwRenamePathDataRef (some d)) :
    providerPostProcessor drives s eventData =
      some { s with fired := s.fired ++ [{ eventData with
        Payload := .EtwRenamePathDataRef (some { d with
          RenamedFilePath :=
            updateHardVolumeWithLogicalDrive drives d.RenamedFilePath
          OldFilePath :=
            (s.g_cacheFilePath._fileobj_map.find d.FileObj).getD "" }) }] } := by
  simp [providerPostProcessor, hT, hP, CacheFilePath.retrievePath_eq]

/-- The DeletePath branch with a matching payload. -/
theorem providerPostProcessor_deletePath (drives : HardVolumeDriveCollection)
    (s : PublisherState) (eventData : EtwEventData) (d : EtwDeletePathData)
    (hT : eventData.Header.Type_ = EtwEventType.DeletePath)
    (hP : eventData.Payload = .EtwDeletePathDataRef (some d)) :
    providerPostProcessor drives s eventData =
      some { s with fired := s.fired ++ [{ eventData with
        Payload := .EtwDeletePathDataRef (some { d with
          FilePath := updateHardVolumeWithLogicalDrive drives d.FilePath }) }] } := by
  simp [providerPostProcessor, hT, hP]

/-! ## Theorems about `providerPostProcessor` -/

/-- C10, rename correlation end-to-end. The code breaks it: the cache of
capacity 2 reached by put(1,"D:\x.txt"), put(0xABCD,"D:\old.txt") is full and
stores handle 0xABCD; a Create event (handle 0xABCD, path
"\Device\HarddiskVolume3\foo.txt") then takes the at-capacity branch of
`addToMap`, which keeps the stored path, and the RenamePath event that follows
(handle 0xABCD, new path "\Device\HarddiskVolume3\bar.txt") is dispatched
with old path "D:\old.txt", not normalize(P) = "D:\foo.txt". -/
theorem rename_after_create_at_capacity_has_stale_old_path :
    CacheFilePath.addAll (CacheFilePath.new 2)
        [(1, "D:\\x.txt"), (0xABCD, "D:\\old.txt")]
      = some ⟨2, [(1, "D:\\x.txt"), (0xABCD, "D:\\old.txt")], [1, 0xABCD]⟩
    ∧ postProcessAll [("\\Device\\HarddiskVolume3", "D:")]
        ⟨⟨2, [(1, "D:\\x.txt"), (0xABCD, "D:\\old.txt")], [1, 0xABCD]⟩, []⟩
        [ { Header := { Type_ := EtwEventType.Create }
            Payload := .EtwCreateDataRef (some
              { FileObj := 0xABCD
                FileName := "\\Device\\HarddiskVolume3\\foo.txt" }) },
          { Header := { Type_ := EtwEventType.RenamePath }
            Payload := .EtwRenamePathDataRef (some
              { FileObj := 0xABCD
                RenamedFilePath := "\\Device\\HarddiskVolume3\\bar.txt" }) } ]
      = some ⟨⟨2, [(0xABCD, "D:\\old.txt")], [0xABCD, 0xABCD]⟩,
          [ { Header := { Type_ := EtwEventType.RenamePath }
              Payload := .EtwRenamePathDataRef (some
                { FileObj := 0xABCD
                  OldFilePath := "D:\\old.txt"
                  RenamedFilePath := "D:\\bar.txt" }) } ]⟩
    ∧ updateHardVolumeWithLogicalDrive [("\\Device\\HarddiskVolume3", "D:")]
        "\\Device\\HarddiskVolume3\\foo.txt" = "D:\\foo.txt"
    ∧ ¬ (∀ (C : Nat) (c : CacheFilePath) (drives : HardVolumeDriveCollection)
          (create rename : EtwEventData) (createData : EtwCreateData)
          (renameData : EtwRenamePathData),
          1 ≤ C → CacheFilePath.Reachable C c →
          create.Header.Type_ = EtwEventType.Create →
          create.Payload = .EtwCreateDataRef (some createData) →
          rename.Header.Type_ = EtwEventType.RenamePath →
          rename.Payload = .EtwRenamePathDataRef (some renameData) →
          renameData.FileObj = createData.FileObj →
          ∃ (s' : PublisherState) (e' : EtwEventData) (d' : EtwRenamePathData),
            postProcessAll drives ⟨c, []⟩ [create, rename] = some s'
            ∧ s'.fired = [e']
            ∧ e'.Payload = .EtwRenamePathDataRef (some d')
            ∧ d'.OldFilePath
                = updateHardVolumeWithLogicalDrive drives createData.FileName
            ∧ d'.RenamedFilePath
                = updateHardVolumeWithLogicalDrive drives
                    renameData.RenamedFilePath) := by
  refine ⟨by decide, by decide, by decide, fun hall => ?_⟩
  obtain ⟨s', e', d', hrun, hfired, hpayload, hold, -⟩ :=
    hall 2 ⟨2, [(1, "D:\\x.txt"), (0xABCD, "D:\\old.txt")], [1, 0xABCD]⟩
      [("\\Device\\HarddiskVolume3", "D:")]
      { Header := { Type_ := EtwEventType.Create }
        Payload := .EtwCreateDataRef (some
          { FileObj := 0xABCD
            FileName := "\\Device\\HarddiskVolume3\\foo.txt" }) }
      { Header := { Type_ := EtwEventType.RenamePath }
        Payload := .EtwRenamePathDataRef (some
          { FileObj := 0xABCD
            RenamedFilePath := "\\Device\\HarddiskVolume3\\bar.txt" }) }
      { FileObj := 0xABCD
        FileName := "\\Device\\HarddiskVolume3\\foo.txt" }
      { FileObj := 0xABCD
        RenamedFilePath := "\\Device\\HarddiskVolume3\\bar.txt" }
      (by decide)
      ⟨[(1, "D:\\x.txt"), (0xABCD, "D:\\old.txt")], by decide⟩
      rfl rfl rfl rfl rfl
  have hrun' : postProcessAll [("\\Device\\HarddiskVolume3", "D:")]
        ⟨⟨2, [(1, "D:\\x.txt"), (0xABCD, "D:\\old.txt")], [1, 0xABCD]⟩, []⟩
        [ { Header := { Type_ := EtwEventType.Create }
            Payload := .EtwCreateDataRef (some
              { FileObj := 0xABCD
                FileName := "\\Device\\HarddiskVolume3\\foo.txt" }) },
          { Header := { Type_ := EtwEventType.RenamePath }
            Payload := .EtwRenamePathDataRef (some
              { FileObj := 0xABCD
                RenamedFilePath := "\\Device\\HarddiskVolume3\\bar.txt" }) } ]
      = some ⟨⟨2, [(0xABCD, "D:\\old.txt")], [0xABCD, 0xABCD]⟩,
          [ { Header := { Type_ := EtwEventType.RenamePath }
              Payload := .EtwRenamePathDataRef (some
                { FileObj := 0xABCD
                  OldFilePath := "D:\\old.txt"
                  RenamedFilePath := "D:\\bar.txt" }) } ]⟩ := by decide
  rw [hrun'] at hrun
  cases hrun
  cases hfired
  cases hpayload
  revert hold
  decide

/-- C11, dispatch count per kind: for an event of kind CreateNewFile,
NameDelete, RenamePath or DeletePath whose payload is the non-null variant of
that kind, `providerPostProcessor` hands exactly one event to `fire`, the
event it was given (same header, payload of the same variant); for a Create
event with a matching payload, on a cache reachable with a capacity of at
least one, it returns and hands no event to `fire`. -/
theorem providerPostProcessor_dispatch_count (drives : HardVolumeDriveCollection)
    (s : PublisherState) (eventData : EtwEventData) :
    (∀ d : EtwCreateNewFileData,
      eventData.Header.Type_ = EtwEventType.CreateNewFile →
      eventData.Payload = .EtwCreateNewFileDataRef (some d) →
      ∃ (s' : PublisherState) (e' : EtwEventData) (d' : EtwCreateNewFileData),
        providerPostProcessor drives s eventData = some s'
        ∧ s'.fired = s.fired ++ [e']
        ∧ e'.Header = eventData.Header
        ∧ e'.Payload = .EtwCreateNewFileDataRef (some d'))
    ∧ (∀ d : EtwNameDeleteData,
      eventData.Header.Type_ = EtwEventType.NameDelete →
      eventData.Payload = .EtwNameDeleteDataRef (some d) →
      ∃ (s' : PublisherState) (e' : EtwEventData) (d' : EtwNameDeleteData),
        providerPostProcessor drives s eventData = some s'
        ∧ s'.fired = s.fired ++ [e']
        ∧ e'.Header = eventData.Header
        ∧ e'.Payload = .EtwNameDeleteDataRef (some d'))
    ∧ (∀ d : EtwRenamePathData,
      eventData.Header.Type_ = EtwEventType.RenamePath →
      eventData.Payload = .EtwRenamePathDataRef (some d) →
      ∃ (s' : PublisherState) (e' : EtwEventData) (d' : EtwRenamePathData),
        providerPostProcessor drives s eventData = some s'
        ∧ s'.fired = s.fired ++ [e']
        ∧ e'.Header = eventData.Header
        ∧ e'.Payload = .EtwRenamePathDataRef (some d'))
    ∧ (∀ d : EtwDeletePathData,
      eventData.Header.Type_ = EtwEventType.DeletePath →
      eventData.Payload = .EtwDeletePathDataRef (some d) →
      ∃ (s' : PublisherState) (e' : EtwEventData) (d' : EtwDeletePathData),
        providerPostProcessor drives s eventData = some s'
        ∧ s'.fired = s.fired ++ [e']
        ∧ e'.Header = eventData.Header
        ∧ e'.Payload = .EtwDeletePathDataRef (some d'))
    ∧ (∀ (d : EtwCreateData) (C : Nat),
      eventData.Header.Type_ = EtwEventType.Create →
      eventData.Payload = .EtwCreateDataRef (some d) →
      (∀ s' : PublisherState,
        providerPostProcessor drives s eventData = some s' → s'.fired = s.fired)
      ∧ (1 ≤ C → CacheFilePath.Reachable C s.g_cacheFilePath →
        ∃ s' : PublisherState,
          providerPostProcessor drives s eventData = some s'
          ∧ s'.fired = s.fired)) := by
  refine ⟨?_, ?_, ?_, ?_, ?_⟩
  · intro d hT hP
    exact ⟨_, _, _, providerPostProcessor_createNewFile drives s eventData d hT hP,
      rfl, rfl, rfl⟩
  · intro d hT hP
    exact ⟨_, _, _, providerPostProcessor_nameDelete drives s eventData d hT hP,
      rfl, rfl, rfl⟩
  · intro d hT hP
    exact ⟨_, _, _, providerPostProcessor_renamePath drives s eventData d hT hP,
      rfl, rfl, rfl⟩
  · intro d hT hP
    exact ⟨_, _, _, providerPostProcessor_deletePath drives s eventData d hT hP,
      rfl, rfl, rfl⟩
  · intro d C hT hP
    refine ⟨fun s' hs' => ?_, fun hC hr => ?_⟩
    · rw [providerPostProcessor_create drives s eventData d hT hP] at hs'
      cases hput : s.g_cacheFilePath.addToMap d.FileObj
          (updateHardVolumeWithLogicalDrive drives d.FileName) with
      | none => simp [hput] at hs'
      | some cache =>
        simp only [hput, Option.map_some', Option.some.injEq] at hs'
        subst hs'
        rfl
    · obtain ⟨cache, hcache⟩ := hr.addToMap_isSome hC d.FileObj
        (updateHardVolumeWithLogicalDrive drives d.FileName)
      refine ⟨{ s with g_cacheFilePath := cache }, ?_, rfl⟩
      rw [providerPostProcessor_create drives s eventData d hT hP, hcache]
      rfl

/-- C11 at concrete events: a RenamePath event and a Create event on the empty
cache of capacity 2. -/
theorem providerPostProcessor_dispatch_count_witness :
    (∃ (s' : PublisherState) (e' : EtwEventData) (d' : EtwRenamePathData),
      providerPostProcessor [("\\Device\\HarddiskVolume3", "D:")]
          ⟨CacheFilePath.new 2, []⟩
          { Header := { Type_ := EtwEventType.RenamePath }
            Payload := .EtwRenamePathDataRef (some
              { FileObj := 7
                RenamedFilePath := "\\Device\\HarddiskVolume3\\b.txt" }) }
        = some s'
      ∧ s'.fired = [] ++ [e']
      ∧ e'.Header = { Type_ := EtwEventType.RenamePath }
      ∧ e'.Payload = .EtwRenamePathDataRef (some d'))
    ∧ (∃ s' : PublisherState,
      providerPostProcessor [("\\Device\\HarddiskVolume3", "D:")]
          ⟨CacheFilePath.new 2, []⟩
          { Header := { Type_ := EtwEventType.Create }
            Payload := .EtwCreateDataRef (some
              { FileObj := 7
                FileName := "\\Device\\HarddiskVolume3\\a.txt" }) }
        = some s'
      ∧ s'.fired = []) :=
  ⟨(providerPostProcessor_dispatch_count [("\\Device\\HarddiskVolume3", "D:")]
      ⟨CacheFilePath.new 2, []⟩
      { Header := { Type_ := EtwEventType.RenamePath }
        Payload := .EtwRenamePathDataRef (some
          { FileObj := 7
            RenamedFilePath := "\\Device\\HarddiskVolume3\\b.txt" }) }).2.2.1
      { FileObj := 7, RenamedFilePath := "\\Device\\HarddiskVolume3\\b.txt" }
      rfl rfl,
   ((providerPostProcessor_dispatch_count [("\\Device\\HarddiskVolume3", "D:")]
      ⟨CacheFilePath.new 2, []⟩
      { Header := { Type_ := EtwEventType.Create }
        Payload := .EtwCreateDataRef (some
          { FileObj := 7
            FileName := "\\Device\\HarddiskVolume3\\a.txt" }) }).2.2.2.2
      { FileObj := 7, FileName := "\\Device\\HarddiskVolume3\\a.txt" } 2
      rfl rfl).2 (by decide) ⟨[], rfl⟩⟩

/-- C12, silent drop: an event of kind Invalid, ProcessStart or ProcessStop,
and an event of a file kind whose payload is not the non-null variant of that
kind (another variant, or a null reference), makes `providerPostProcessor`
return with the cache and the list of fired events as they were. -/
theorem providerPostProcessor_drops (drives : HardVolumeDriveCollection)
    (s : PublisherState) (eventData : EtwEventData) :
    ((eventData.Header.Type_ = EtwEventType.Invalid
        ∨ eventData.Header.Type_ = EtwEventType.ProcessStart
        ∨ eventData.Header.Type_ = EtwEventType.ProcessStop) →
      providerPostProcessor drives s eventData = some s)
    ∧ (eventData.Header.Type_ = EtwEventType.CreateNewFile →
      (∀ d, eventData.Payload ≠ .EtwCreateNewFileDataRef (some d)) →
      providerPostProcessor drives s eventData = some s)
    ∧ (eventData.Header.Type_ = EtwEventType.NameDelete →
      (∀ d, eventData.Payload ≠ .EtwNameDeleteDataRef (some d)) →
      providerPostProcessor drives s eventData = some s)
    ∧ (eventData.Header.Type_ = EtwEventType.Create →
      (∀ d, eventData.Payload ≠ .EtwCreateDataRef (some d)) →
      providerPostProcessor drives s eventData = some s)
    ∧ (eventData.Header.Type_ = EtwEventType.RenamePath →
      (∀ d, eventData.Payload ≠ .EtwRenamePathDataRef (some d)) →
      providerPostProcessor drives s eventData = some s)
    ∧ (eventData.Header.Type_ = EtwEventType.DeletePath →
      (∀ d, eventData.Payload ≠ .EtwDeletePathDataRef (some d)) →
      providerPostProcessor drives s eventData = some s) := by
  obtain ⟨header, payload⟩ := eventData
  refine ⟨?_, ?_, ?_, ?_, ?_, ?_⟩
  · rintro (hT | hT | hT) <;> simp only at hT <;> simp [providerPostProcessor, hT]
  all_goals
    intro hT hP
    simp only at hT hP
    cases payload with
    | monostate => simp [providerPostProcessor, hT]
    | EtwProcStartDataRef ref => simp [providerPostProcessor, hT]
    | EtwProcStopDataRef ref => simp [providerPostProcessor, hT]
    | EtwCreateNewFileDataRef ref =>
      cases ref <;> simp_all [providerPostProcessor]
    | EtwNameDeleteDataRef ref =>
      cases ref <;> simp_all [providerPostProcessor]
    | EtwCreateDataRef ref =>
      cases ref <;> simp_all [providerPostProcessor]
    | EtwRenamePathDataRef ref =>
      cases ref <;> simp_all [providerPostProcessor]
    | EtwDeletePathDataRef ref =>
      cases ref <;> simp_all [providerPostProcessor]

/-- C12 at concrete events: an Invalid event, and the RenamePath event with a
DeletePath payload and the Create event with a rename payload of the claim. -/
theorem providerPostProcessor_drops_witness :
    providerPostProcessor [("\\Device\\HarddiskVolume3", "D:")]
        ⟨⟨2, [(7, "D:\\a.txt")], [7]⟩, []⟩
        { Header := { Type_ := EtwEventType.Invalid }
          Payload := .EtwRenamePathDataRef (some { FileObj := 7 }) }
      = some ⟨⟨2, [(7, "D:\\a.txt")], [7]⟩, []⟩
    ∧ providerPostProcessor [("\\Device\\HarddiskVolume3", "D:")]
        ⟨⟨2, [(7, "D:\\a.txt")], [7]⟩, []⟩
        { Header := { Type_ := EtwEventType.RenamePath }
          Payload := .EtwDeletePathDataRef (some { FilePath := "x" }) }
      = some ⟨⟨2, [(7, "D:\\a.txt")], [7]⟩, []⟩
    ∧ providerPostProcessor [("\\Device\\HarddiskVolume3", "D:")]
        ⟨⟨2, [(7, "D:\\a.txt")], [7]⟩, []⟩
        { Header := { Type_ := EtwEventType.Create }
          Payload := .EtwRenamePathDataRef (some { FileObj := 7 }) }
      = some ⟨⟨2, [(7, "D:\\a.txt")], [7]⟩, []⟩ :=
  ⟨(providerPostProcessor_drops _ _ _).1 (Or.inl rfl),
   (providerPostProcessor_drops _ _ _).2.2.2.2.1 rfl (fun d h => by cases h),
   (providerPostProcessor_drops _ _ _).2.2.2.1 rfl (fun d h => by cases h)⟩

/-- C13, Create populates the cache: for a Create event with a matching
non-null payload (handle h, path P) the result of `providerPostProcessor` is
the state in which the cache is the result of `addToMap` of h and the
normalized P on the cache before, all else unchanged; on a cache reachable
with a capacity of at least one that result is defined. -/
theorem providerPostProcessor_create_populates_cache
    (drives : HardVolumeDriveCollection) (s : PublisherState)
    (eventData : EtwEventData) (d : EtwCreateData) (C : Nat)
    (hT : eventData.Header.Type_ = EtwEventType.Create)
    (hP : eventData.Payload = .EtwCreateDataRef (some d))
    (hC : 1 ≤ C) (hr : CacheFilePath.Reachable C s.g_cacheFilePath) :
    (providerPostProcessor drives s eventData).map (fun s' => s'.g_cacheFilePath)
      = s.g_cacheFilePath.addToMap d.FileObj
          (updateHardVolumeWithLogicalDrive drives d.FileName)
    ∧ ∃ cache : CacheFilePath,
      s.g_cacheFilePath.addToMap d.FileObj
          (updateHardVolumeWithLogicalDrive drives d.FileName) = some cache
      ∧ providerPostProcessor drives s eventData
          = some { g_cacheFilePath := cache, fired := s.fired } := by
  obtain ⟨cache, hcache⟩ := hr.addToMap_isSome hC d.FileObj
    (updateHardVolumeWithLogicalDrive drives d.FileName)
  have hpost : providerPostProcessor drives s eventData
      = some { g_cacheFilePath := cache, fired := s.fired } := by
    rw [providerPostProcessor_create drives s eventData d hT hP, hcache]
    rfl
  exact ⟨by rw [hpost, hcache]; rfl, cache, hcache, hpost⟩

/-- C13 at a concrete event: the normalized path "D:\a.txt" is what the cache
stores for handle 7. -/
theorem providerPostProcessor_create_populates_cache_witness :
    ∃ cache : CacheFilePath,
      CacheFilePath.addToMap (CacheFilePath.new 2) 7
          (updateHardVolumeWithLogicalDrive [("\\Device\\HarddiskVolume3", "D:")]
            "\\Device\\HarddiskVolume3\\a.txt") = some cache
      ∧ providerPostProcessor [("\\Device\\HarddiskVolume3", "D:")]
          ⟨CacheFilePath.new 2, []⟩
          { Header := { Type_ := EtwEventType.Create }
            Payload := .EtwCreateDataRef (some
              { FileObj := 7
                FileName := "\\Device\\HarddiskVolume3\\a.txt" }) }
          = some { g_cacheFilePath := cache, fired := [] } :=
  (providerPostProcessor_create_populates_cache
    [("\\Device\\HarddiskVolume3", "D:")] ⟨CacheFilePath.new 2, []⟩
    { Header := { Type_ := EtwEventType.Create }
      Payload := .EtwCreateDataRef (some
        { FileObj := 7, FileName := "\\Device\\HarddiskVolume3\\a.txt" }) }
    { FileObj := 7, FileName := "\\Device\\HarddiskVolume3\\a.txt" } 2
    rfl rfl (by decide) ⟨[], rfl⟩).2

/-- C14, rename old-path attachment: for a RenamePath event with a matching
non-null payload and handle h, `providerPostProcessor` fires the event once,
with the old path set to the path the cache stores for h, or to the empty
string when h is not stored, whatever the field held before, with the new path
normalized, and with the cache unchanged. -/
theorem providerPostProcessor_rename_old_path
    (drives : HardVolumeDriveCollection) (s : PublisherState)
    (eventData : EtwEventData) (d : EtwRenamePathData)
    (hT : eventData.Header.Type_ = EtwEventType.RenamePath)
    (hP : eventData.Payload = .EtwRenamePathDataRef (some d)) :
    providerPostProcessor drives s eventData =
      some { g_cacheFilePath := s.g_cacheFilePath
             fired := s.fired ++ [{ eventData with
               Payload := .EtwRenamePathDataRef (some { d with
                 RenamedFilePath :=
                   updateHardVolumeWithLogicalDrive drives d.RenamedFilePath
                 OldFilePath :=
                   match s.g_cacheFilePath._fileobj_map.find d.FileObj with
                   | some p => p
                   | none => "" }) }] } := by
  rw [providerPostProcessor_renamePath drives s eventData d hT hP]
  cases s.g_cacheFilePath._fileobj_map.find d.FileObj <;> rfl

/-- C14 at concrete events: a stored handle and a handle that is not stored,
both with a previous old-path content. -/
theorem providerPostProcessor_rename_old_path_witness :
    providerPostProcessor [("\\Device\\HarddiskVolume3", "D:")]
        ⟨⟨2, [(7, "D:\\a.txt")], [7]⟩, []⟩
        { Header := { Type_ := EtwEventType.RenamePath }
          Payload := .EtwRenamePathDataRef (some
            { FileObj := 7, OldFilePath := "junk"
              RenamedFilePath := "\\Device\\HarddiskVolume3\\b.txt" }) }
      = some ⟨⟨2, [(7, "D:\\a.txt")], [7]⟩,
          [{ Header := { Type_ := EtwEventType.RenamePath }
             Payload := .EtwRenamePathDataRef (some
               { FileObj := 7, OldFilePath := "D:\\a.txt"
                 RenamedFilePath := "D:\\b.txt" }) }]⟩
    ∧ providerPostProcessor [("\\Device\\HarddiskVolume3", "D:")]
        ⟨⟨2, [(7, "D:\\a.txt")], [7]⟩, []⟩
        { Header := { Type_ := EtwEventType.RenamePath }
          Payload := .EtwRenamePathDataRef (some
            { FileObj := 8, OldFilePath := "junk"
              RenamedFilePath := "\\Device\\HarddiskVolume3\\b.txt" }) }
      = some ⟨⟨2, [(7, "D:\\a.txt")], [7]⟩,
          [{ Header := { Type_ := EtwEventType.RenamePath }
             Payload := .EtwRenamePathDataRef (some
               { FileObj := 8, OldFilePath := ""
                 RenamedFilePath := "D:\\b.txt" }) }]⟩ :=
  ⟨(providerPostProcessor_rename_old_path _ _ _ _ rfl rfl).trans (by decide),
   (providerPostProcessor_rename_old_path _ _ _ _ rfl rfl).trans (by decide)⟩

/-! ## Supporting lemmas: `std::string::find` and the normalisation loop -/

namespace StdString

/-- `findChars` misses exactly when the needle does not occur. -/
theorem findChars_eq_none_iff (needle hay : List Char) :
    findChars needle hay = none ↔ ¬ needle <:+: hay := by
  induction hay with
  | nil =>
    cases needle with
    | nil => simp [findChars]
    | cons a needle => simp [findChars]
  | cons c hay ih =>
    simp only [findChars, List.infix_cons_iff]
    by_cases hp : needle <+: c :: hay
    · simp [hp]
    · simp [hp, ih]

/-- One step of `findChars`. -/
theorem findChars_cons (needle : List Char) (c : Char) (hay : List Char) :
    findChars needle (c :: hay) =
      if needle <+: c :: hay then some 0
      else (findChars needle hay).map (fun pos => pos + 1) := by
  simp [findChars]

/-- `findChars` returns the length of the text before the leftmost
occurrence. -/
theorem findChars_leftmost (needle : List Char) (pre post : List Char)
    (hleft : ∀ pre' post' : List Char,
      pre ++ needle ++ post = pre' ++ needle ++ post' → pre.length ≤ pre'.length) :
    findChars needle (pre ++ needle ++ post) = some pre.length := by
  induction pre with
  | nil =>
    cases hh : needle ++ post with
    | nil =>
      obtain ⟨hn, hp⟩ := List.append_eq_nil.1 hh
      subst hn hp
      simp [findChars]
    | cons c rest =>
      have hpre : needle <+: c :: rest := ⟨post, hh⟩
      simp [hh, findChars, hpre]
  | cons c pre ih =>
    have hnp : ¬ needle <+: c :: (pre ++ needle ++ post) := by
      rintro ⟨post', hpost'⟩
      have := hleft [] post' (by simpa using hpost'.symm)
      simp at this
    have hrec := ih (fun pre' post' h => by
      have := hleft (c :: pre') post' (by simp [h])
      simpa using this)
    rw [List.cons_append, List.cons_append, findChars_cons, if_neg hnp, hrec]
    rfl

/-- `findChars` finds a position that is not after any occurrence. -/
theorem findChars_le_of_occurrence (needle : List Char) (pre post : List Char) :
    ∃ i, findChars needle (pre ++ needle ++ post) = some i ∧ i ≤ pre.length := by
  induction pre with
  | nil =>
    refine ⟨0, ?_, Nat.le_refl _⟩
    exact findChars_leftmost needle [] post (fun _ _ _ => Nat.zero_le _)
  | cons c pre ih =>
    obtain ⟨j, hj, hle⟩ := ih
    rw [List.cons_append, List.cons_append, findChars_cons]
    by_cases hp : needle <+: c :: (pre ++ needle ++ post)
    · exact ⟨0, by rw [if_pos hp], Nat.zero_le _⟩
    · exact ⟨j + 1, by rw [if_neg hp, hj]; rfl, Nat.succ_le_succ hle⟩

end StdString

/-- The loop of `updateHardVolumeWithLogicalDrive` passes over entries whose
hard volume does not occur in the path. -/
theorem updateHardVolumeWithLogicalDrive_skip
    (before rest : HardVolumeDriveCollection) (path : String)
    (hbefore : ∀ e ∈ before, ¬ e.1.data <:+: path.data) :
    updateHardVolumeWithLogicalDrive (before ++ rest) path
      = updateHardVolumeWithLogicalDrive rest path := by
  induction before with
  | nil => rfl
  | cons e before ih =>
    obtain ⟨v, d⟩ := e
    have hv : StdString.find path v = none :=
      (StdString.findChars_eq_none_iff v.data path.data).2
        (hbefore (v, d) (List.mem_cons_self _ _))
    simp only [List.cons_append, updateHardVolumeWithLogicalDrive, hv]
    exact ih (fun e he => hbefore e (List.mem_cons_of_mem _ he))

/-- The loop of `updateHardVolumeWithLogicalDrive` replaces the leftmost
occurrence of the hard volume of its first entry when there is one. -/
theorem updateHardVolumeWithLogicalDrive_hit
    (rest : HardVolumeDriveCollection) (v d path : String)
    (pre post : List Char) (hocc : path.data = pre ++ v.data ++ post)
    (hleft : ∀ pre' post' : List Char,
      path.data = pre' ++ v.data ++ post' → pre.length ≤ pre'.length) :
    updateHardVolumeWithLogicalDrive ((v, d) :: rest) path
      = ⟨path.data.take pre.length ++ d.data
          ++ path.data.drop (pre.length + v.data.length)⟩ := by
  have hv : StdString.find path v = some pre.length := by
    unfold StdString.find
    rw [hocc]
    exact StdString.findChars_leftmost v.data pre post
      (fun pre' post' h => hleft pre' post' (hocc.trans h))
  simp only [updateHardVolumeWithLogicalDrive, hv, StdString.replace]
  rfl

/-! ## Theorems about `updateHardVolumeWithLogicalDrive` -/

/-- C15 as stated, path normalization idempotence, fails: with the mapping
"\Device\HarddiskVolume3" -> "D:" the path
"\Device\HarddiskVolume3\backup\Device\HarddiskVolume3\foo.txt" normalizes to
"D:\backup\Device\HarddiskVolume3\foo.txt", in which the device-form prefix
still occurs, and a second call gives "D:\backupD:\foo.txt". -/
theorem updateHardVolumeWithLogicalDrive_not_idempotent :
    updateHardVolumeWithLogicalDrive [("\\Device\\HarddiskVolume3", "D:")]
        "\\Device\\HarddiskVolume3\\backup\\Device\\HarddiskVolume3\\foo.txt"
      = "D:\\backup\\Device\\HarddiskVolume3\\foo.txt"
    ∧ updateHardVolumeWithLogicalDrive [("\\Device\\HarddiskVolume3", "D:")]
        "D:\\backup\\Device\\HarddiskVolume3\\foo.txt"
      = "D:\\backupD:\\foo.txt"
    ∧ ¬ (updateHardVolumeWithLogicalDrive [("\\Device\\HarddiskVolume3", "D:")]
          (updateHardVolumeWithLogicalDrive [("\\Device\\HarddiskVolume3", "D:")]
            "\\Device\\HarddiskVolume3\\backup\\Device\\HarddiskVolume3\\foo.txt")
        = updateHardVolumeWithLogicalDrive [("\\Device\\HarddiskVolume3", "D:")]
            "\\Device\\HarddiskVolume3\\backup\\Device\\HarddiskVolume3\\foo.txt") := by
  refine ⟨by decide, by decide, by decide⟩

/-- C15 amended: for every volume mapping and every path x such that no
device-form prefix of the mapping occurs in normalize(x), a second call
changes nothing: normalize(normalize(x)) = normalize(x). -/
theorem updateHardVolumeWithLogicalDrive_idempotent_of_no_prefix_left
    (drives : HardVolumeDriveCollection) (x : String)
    (hleft : ∀ e ∈ drives,
      ¬ e.1.data <:+: (updateHardVolumeWithLogicalDrive drives x).data) :
    updateHardVolumeWithLogicalDrive drives
        (updateHardVolumeWithLogicalDrive drives x)
      = updateHardVolumeWithLogicalDrive drives x := by
  have h := updateHardVolumeWithLogicalDrive_skip drives []
    (updateHardVolumeWithLogicalDrive drives x) hleft
  rw [List.append_nil] at h
  rw [h]
  rfl

/-- C15 amended, at the path "\Device\HarddiskVolume3\foo.txt": its normal form
"D:\foo.txt" holds no device-form prefix and is kept by a second call. -/
theorem updateHardVolumeWithLogicalDrive_idempotent_of_no_prefix_left_witness :
    (∀ e ∈ [("\\Device\\HarddiskVolume3", "D:")],
      ¬ e.1.data <:+: (updateHardVolumeWithLogicalDrive
          [("\\Device\\HarddiskVolume3", "D:")]
          "\\Device\\HarddiskVolume3\\foo.txt").data)
    ∧ updateHardVolumeWithLogicalDrive [("\\Device\\HarddiskVolume3", "D:")]
        (updateHardVolumeWithLogicalDrive [("\\Device\\HarddiskVolume3", "D:")]
          "\\Device\\HarddiskVolume3\\foo.txt")
      = "D:\\foo.txt" := by
  have hyp : ∀ e ∈ [("\\Device\\HarddiskVolume3", "D:")],
      ¬ e.1.data <:+: (updateHardVolumeWithLogicalDrive
          [("\\Device\\HarddiskVolume3", "D:")]
          "\\Device\\HarddiskVolume3\\foo.txt").data := by
    intro e he
    rw [List.mem_singleton] at he
    subst he
    exact (StdString.findChars_eq_none_iff _ _).1 (by decide)
  exact ⟨hyp,
    (updateHardVolumeWithLogicalDrive_idempotent_of_no_prefix_left
      [("\\Device\\HarddiskVolume3", "D:")] "\\Device\\HarddiskVolume3\\foo.txt"
      hyp).trans (by decide)⟩

/-- C16, exactly one substitution: when (v, d) is the first entry of the
mapping, in iteration order, whose v occurs in the path, and i is the leftmost
position of v in the path, the result is path[0, i) ++ d ++ path[i + |v|, end):
the text before and the text after that occurrence are kept as they are. -/
theorem updateHardVolumeWithLogicalDrive_one_substitution
    (before after : HardVolumeDriveCollection) (v d path : String)
    (pre post : List Char)
    (hbefore : ∀ e ∈ before, ¬ e.1.data <:+: path.data)
    (hocc : path.data = pre ++ v.data ++ post)
    (hleft : ∀ pre' post' : List Char,
      path.data = pre' ++ v.data ++ post' → pre.length ≤ pre'.length) :
    updateHardVolumeWithLogicalDrive (before ++ (v, d) :: after) path
      = ⟨path.data.take pre.length ++ d.data
          ++ path.data.drop (pre.length + v.data.length)⟩
    ∧ updateHardVolumeWithLogicalDrive (before ++ (v, d) :: after) path
      = ⟨pre ++ d.data ++ post⟩ := by
  have h1 : updateHardVolumeWithLogicalDrive (before ++ (v, d) :: after) path
      = ⟨path.data.take pre.length ++ d.data
          ++ path.data.drop (pre.length + v.data.length)⟩ := by
    rw [updateHardVolumeWithLogicalDrive_skip before _ path hbefore]
    exact updateHardVolumeWithLogicalDrive_hit after v d path pre post hocc hleft
  refine ⟨h1, ?_⟩
  rw [h1, hocc]
  congr 1
  simp [List.take_append_eq_append_take, List.drop_append_eq_append_drop]

/-- C16 at a concrete mapping and path: the first entry does not occur, the
second occurs twice, the third occurs as well; only the leftmost occurrence
of the second is replaced. -/
theorem updateHardVolumeWithLogicalDrive_one_substitution_witness :
    updateHardVolumeWithLogicalDrive
        ([("\\Device\\HarddiskVolume1", "C:")]
          ++ ("\\Device\\HarddiskVolume3", "D:") :: [("\\x", "Z:")])
        "file:\\Device\\HarddiskVolume3\\x\\Device\\HarddiskVolume3\\y"
      = "file:D:\\x\\Device\\HarddiskVolume3\\y" := by
  have hfind : StdString.findChars "\\Device\\HarddiskVolume3".data
      "file:\\Device\\HarddiskVolume3\\x\\Device\\HarddiskVolume3\\y".data
      = some 5 := by decide
  have h := (updateHardVolumeWithLogicalDrive_one_substitution
    [("\\Device\\HarddiskVolume1", "C:")] [("\\x", "Z:")]
    "\\Device\\HarddiskVolume3" "D:"
    "file:\\Device\\HarddiskVolume3\\x\\Device\\HarddiskVolume3\\y"
    "file:".data "\\x\\Device\\HarddiskVolume3\\y".data
    (fun e he => by
      rw [List.mem_singleton] at he
      subst he
      exact (StdString.findChars_eq_none_iff _ _).1 (by decide))
    (by decide)
    (fun pre' post' hocc => by
      obtain ⟨i, hi, hle⟩ := StdString.findChars_le_of_occurrence
        "\\Device\\HarddiskVolume3".data pre' post'
      rw [← hocc, hfind] at hi
      cases hi
      exact hle)).2
  exact h.trans (by decide)

/-- C17, normalization miss is the identity: when no device-form prefix of
the mapping occurs in the path, the empty mapping included, the path is
returned as it is. -/
theorem updateHardVolumeWithLogicalDrive_miss
    (drives : HardVolumeDriveCollection) (path : String)
    (hmiss : ∀ e ∈ drives, ¬ e.1.data <:+: path.data) :
    updateHardVolumeWithLogicalDrive drives path = path := by
  have h := updateHardVolumeWithLogicalDrive_skip drives [] path hmiss
  rw [List.append_nil] at h
  rw [h]
  rfl

/-- C17 at a concrete mapping and a drive-letter path. -/
theorem updateHardVolumeWithLogicalDrive_miss_witness :
    updateHardVolumeWithLogicalDrive
        [("\\Device\\HarddiskVolume1", "C:"), ("\\Device\\HarddiskVolume3", "D:")]
        "C:\\Windows\\notepad.exe"
      = "C:\\Windows\\notepad.exe" :=
  updateHardVolumeWithLogicalDrive_miss
    [("\\Device\\HarddiskVolume1", "C:"), ("\\Device\\HarddiskVolume3", "D:")]
    "C:\\Windows\\notepad.exe"
    (fun e he => by
      simp only [List.mem_cons, List.mem_singleton, List.not_mem_nil, or_false] at he
      rcases he with he | he <;> subst he <;>
        exact (StdString.findChars_eq_none_iff _ _).1 (by decide))

/-! ## Supporting lemmas: `providerPreProcessor` by event identifier -/

/-- A record with an identifier other than the five supported ones. -/
theorem providerPreProcessor_unsupported (wstringToString : String → String)
    (rawEvent : EVENT_RECORD) (parser : FieldAccess)
    (h30 : rawEvent.EventHeader.EventDescriptorId ≠ 30)
    (h11 : rawEvent.EventHeader.EventDescriptorId ≠ 11)
    (h12 : rawEvent.EventHeader.EventDescriptorId ≠ 12)
    (h27 : rawEvent.EventHeader.EventDescriptorId ≠ 27)
    (h26 : rawEvent.EventHeader.EventDescriptorId ≠ 26) :
    isSupportedEvent rawEvent.EventHeader = false
    ∧ providerPreProcessor wstringToString rawEvent parser = some none := by
  have hs : isSupportedEvent rawEvent.EventHeader = false := by
    simp [isSupportedEvent, isSupportedNameDeleteEvent,
      isSupportedCreateNewFileEvent, isSupportedCreateEvent,
      isSupportedRenamePathEvent, isSupportedDeletePathEvent, etwNameDeleteID,
      etwCreateNewFileID, etwCreateID, etwRenamePathID, etwDeletePathID, h30,
      h11, h12, h27, h26]
  exact ⟨hs, by simp [providerPreProcessor, hs]⟩

/-- A record with identifier 30. -/
theorem providerPreProcessor_id30 (wstringToString : String → String)
    (rawEvent : EVENT_RECORD) (parser : FieldAccess)
    (hid : rawEvent.EventHeader.EventDescriptorId = 30) :
    providerPreProcessor wstringToString rawEvent parser =
      (parser.parseWString "FileName").map (fun fileName => some
        { Header :=
            { RawHeader := rawEvent.EventHeader
              Type_ := EtwEventType.CreateNewFile }
          Payload := .EtwCreateNewFileDataRef (some
            { ProcessId := rawEvent.EventHeader.ProcessId
              EventTime :=
                { dwLowDateTime := rawEvent.EventHeader.TimeStampLowPart
                  dwHighDateTime := rawEvent.EventHeader.TimeStampHighPart }
              FileName := wstringToString fileName
              UserDataReady := true }) }) := by
  cases hp : parser.parseWString "FileName" <;>
    simp [providerPreProcessor, isSupportedEvent, isSupportedNameDeleteEvent,
      isSupportedCreateNewFileEvent, isSupportedCreateEvent,
      isSupportedRenamePathEvent, isSupportedDeletePathEvent, etwNameDeleteID,
      etwCreateNewFileID, etwCreateID, etwRenamePathID, etwDeletePathID, hid, hp]

/-- A record with identifier 11. -/
theorem providerPreProcessor_id11 (wstringToString : String → String)
    (rawEvent : EVENT_RECORD) (parser : FieldAccess)
    (hid : rawEvent.EventHeader.EventDescriptorId = 11) :
    providerPreProcessor wstringToString rawEvent parser =
      (parser.parseWString "FileName").map (fun fileName => some
        { Header :=
            { RawHeader := rawEvent.EventHeader
              Type_ := EtwEventType.NameDelete }
          Payload := .EtwNameDeleteDataRef (some
            { ProcessId := rawEvent.EventHeader.ProcessId
              EventTime :=
                { dwLowDateTime := rawEvent.EventHeader.TimeStampLowPart
                  dwHighDateTime := rawEvent.EventHeader.TimeStampHighPart }
              FileName := wstringToString fileName
              UserDataReady := true }) }) := by
  cases hp : parser.parseWString "FileName" <;>
    simp [providerPreProcessor, isSupportedEvent, isSupportedNameDeleteEvent,
      isSupportedCreateNewFileEvent, isSupportedCreateEvent,
      isSupportedRenamePathEvent, isSupportedDeletePathEvent, etwNameDeleteID,
      etwCreateNewFileID, etwCreateID, etwRenamePathID, etwDeletePathID, hid, hp]

/-- A record with identifier 12. -/
theorem providerPreProcessor_id12 (wstringToString : String → String)
    (rawEvent : EVENT_RECORD) (parser : FieldAccess)
    (hid : rawEvent.EventHeader.EventDescriptorId = 12) :
    providerPreProcessor wstringToString rawEvent parser =
      (parser.parseWString "FileName").bind (fun fileName =>
        (parser.parsePointer "FileObject").map (fun address => some
          { Header :=
              { RawHeader := rawEvent.EventHeader
                Type_ := EtwEventType.Create }
            Payload := .EtwCreateDataRef (some
              { ProcessId := rawEvent.EventHeader.ProcessId
                EventTime :=
                  { dwLowDateTime := rawEvent.EventHeader.TimeStampLowPart
                    dwHighDateTime := rawEvent.EventHeader.TimeStampHighPart }
                FileName := wstringToString fileName
                FileObj := address
                UserDataReady := true }) })) := by
  cases hp : parser.parseWString "FileName" <;>
    cases hq : parser.parsePointer "FileObject" <;>
    simp [providerPreProcessor, isSupportedEvent, isSupportedNameDeleteEvent,
      isSupportedCreateNewFileEvent, isSupportedCreateEvent,
      isSupportedRenamePathEvent, isSupportedDeletePathEvent, etwNameDeleteID,
      etwCreateNewFileID, etwCreateID, etwRenamePathID, etwDeletePathID, hid, hp,
      hq]

/-- A record with identifier 27. -/
theorem providerPreProcessor_id27 (wstringToString : String → String)
    (rawEvent : EVENT_RECORD) (parser : FieldAccess)
    (hid : rawEvent.EventHeader.EventDescriptorId = 27) :
    providerPreProcessor wstringToString rawEvent parser =
      (parser.parseWString "FilePath").bind (fun filePath =>
        (parser.parsePointer "FileObject").map (fun address => some
          { Header :=
              { RawHeader := rawEvent.EventHeader
                Type_ := EtwEventType.RenamePath }
            Payload := .EtwRenamePathDataRef (some
              { ProcessId := rawEvent.EventHeader.ProcessId
                EventTime :=
                  { dwLowDateTime := rawEvent.EventHeader.TimeStampLowPart
                    dwHighDateTime := rawEvent.EventHeader.TimeStampHighPart }
                OldFilePath := ""
                RenamedFilePath := wstringToString filePath
                FileObj := address
                UserDataReady := true }) })) := by
  cases hp : parser.parseWString "FilePath" <;>
    cases hq : parser.parsePointer "FileObject" <;>
    simp [providerPreProcessor, isSupportedEvent, isSupportedNameDeleteEvent,
      isSupportedCreateNewFileEvent, isSupportedCreateEvent,
      isSupportedRenamePathEvent, isSupportedDeletePathEvent, etwNameDeleteID,
      etwCreateNewFileID, etwCreateID, etwRenamePathID, etwDeletePathID, hid, hp,
      hq]

/-- A record with identifier 26. -/
theorem providerPreProcessor_id26 (wstringToString : String → String)
    (rawEvent : EVENT_RECORD) (parser : FieldAccess)
    (hid : rawEvent.EventHeader.EventDescriptorId = 26) :
    providerPreProcessor wstringToString rawEvent parser =
      (parser.parseWString "FilePath").map (fun filePath => some
        { Header :=
            { RawHeader := rawEvent.EventHeader
              Type_ := EtwEventType.DeletePath }
          Payload := .EtwDeletePathDataRef (some
            { ProcessId := rawEvent.EventHeader.ProcessId
              EventTime :=
                { dwLowDateTime := rawEvent.EventHeader.TimeStampLowPart
                  dwHighDateTime := rawEvent.EventHeader.TimeStampHighPart }
              FilePath := wstringToString filePath
              UserDataReady := true }) }) := by
  cases hp : parser.parseWString "FilePath" <;>
    simp [providerPreProcessor, isSupportedEvent, isSupportedNameDeleteEvent,
      isSupportedCreateNewFileEvent, isSupportedCreateEvent,
      isSupportedRenamePathEvent, isSupportedDeletePathEvent, etwNameDeleteID,
      etwCreateNewFileID, etwCreateID, etwRenamePathID, etwDeletePathID, hid, hp]

/-- A sequence of checks of which all that hold assign the same type leaves
that type when one of them holds and the initial type otherwise. -/
theorem foldl_typeChecks (checks : List ((EVENT_HEADER → Bool) × EtwEventType))
    (header : EVENT_HEADER) (init k : EtwEventType)
    (hk : ∀ c ∈ checks, c.1 header = true → c.2 = k) :
    checks.foldl (fun type check => if check.1 header then check.2 else type) init
      = if checks.any (fun c => c.1 header) then k else init := by
  induction checks generalizing init with
  | nil => rfl
  | cons c checks ih =>
    obtain ⟨p, t⟩ := c
    have ih' := fun init' => ih init' (fun c' hc' => hk c' (List.mem_cons_of_mem _ hc'))
    rw [List.foldl_cons, ih', List.any_cons]
    by_cases hp : p header = true
    · have hck : t = k := hk (p, t) (List.mem_cons_self _ _) hp
      subst hck
      show (if _ then t else if p header = true then t else init) = if (p header || _) = true then t else init
      rw [hp]
      simp only [Bool.true_or, if_true, ite_self]
    · have hp' : p header = false := Bool.eq_false_iff.2 hp
      show (if _ then k else if p header = true then t else init) = if (p header || _) = true then k else init
      rw [hp']
      simp only [Bool.false_or]
      rfl

/-- Every check of `typeChecks` that holds assigns the type that the checks in
source order leave. -/
theorem typeChecks_exclusive (header : EVENT_HEADER) :
    ∀ c ∈ typeChecks, c.1 header = true → c.2 = assignedType typeChecks header := by
  intro c hc hholds
  simp only [typeChecks, List.mem_cons, List.mem_singleton, List.not_mem_nil,
    or_false] at hc
  rcases hc with hc | hc | hc | hc | hc <;> subst hc <;>
    simp only [isSupportedCreateNewFileEvent, isSupportedNameDeleteEvent,
      isSupportedCreateEvent, isSupportedRenamePathEvent,
      isSupportedDeletePathEvent, etwNameDeleteID, etwCreateNewFileID,
      etwCreateID, etwRenamePathID, etwDeletePathID, beq_iff_eq] at hholds <;>
    simp [assignedType, typeChecks, isSupportedCreateNewFileEvent,
      isSupportedNameDeleteEvent, isSupportedCreateEvent,
      isSupportedRenamePathEvent, isSupportedDeletePathEvent, etwNameDeleteID,
      etwCreateNewFileID, etwCreateID, etwRenamePathID, etwDeletePathID, hholds]

/-! ## Theorems about `providerPreProcessor` -/

/-- C18, unknown type identifier is dropped: for a raw record whose event
identifier is none of 30, 11, 12, 27, 26, `isSupportedEvent` is false,
`providerPreProcessor` returns without dispatching an event, and the record
leaves the cache and the list of fired events as they were. -/
theorem unknown_identifier_is_dropped (wstringToString : String → String)
    (deliver : EtwEventData → EtwEventData) (drives : HardVolumeDriveCollection)
    (s : PublisherState) (rawEvent : EVENT_RECORD) (parser : FieldAccess)
    (h30 : rawEvent.EventHeader.EventDescriptorId ≠ 30)
    (h11 : rawEvent.EventHeader.EventDescriptorId ≠ 11)
    (h12 : rawEvent.EventHeader.EventDescriptorId ≠ 12)
    (h27 : rawEvent.EventHeader.EventDescriptorId ≠ 27)
    (h26 : rawEvent.EventHeader.EventDescriptorId ≠ 26) :
    isSupportedEvent rawEvent.EventHeader = false
    ∧ providerPreProcessor wstringToString rawEvent parser = some none
    ∧ processRecord wstringToString deliver drives s rawEvent parser = some s := by
  obtain ⟨hs, hpre⟩ := providerPreProcessor_unsupported wstringToString rawEvent
    parser h30 h11 h12 h27 h26
  refine ⟨hs, hpre, ?_⟩
  simp [processRecord, hpre]

/-- C18 at a record with identifier 13 and a parser that extracts every
field. -/
theorem unknown_identifier_is_dropped_witness :
    isSupportedEvent { EventDescriptorId := 13, ProcessId := 4 } = false
    ∧ providerPreProcessor id ⟨{ EventDescriptorId := 13, ProcessId := 4 }⟩
        ⟨fun _ => some "\\Device\\HarddiskVolume3\\a.txt", fun _ => some 7⟩
      = some none
    ∧ processRecord id id [("\\Device\\HarddiskVolume3", "D:")]
        ⟨⟨2, [(7, "D:\\a.txt")], [7]⟩, []⟩
        ⟨{ EventDescriptorId := 13, ProcessId := 4 }⟩
        ⟨fun _ => some "\\Device\\HarddiskVolume3\\a.txt", fun _ => some 7⟩
      = some ⟨⟨2, [(7, "D:\\a.txt")], [7]⟩, []⟩ :=
  unknown_identifier_is_dropped id id [("\\Device\\HarddiskVolume3", "D:")]
    ⟨⟨2, [(7, "D:\\a.txt")], [7]⟩, []⟩
    ⟨{ EventDescriptorId := 13, ProcessId := 4 }⟩
    ⟨fun _ => some "\\Device\\HarddiskVolume3\\a.txt", fun _ => some 7⟩
    (by decide) (by decide) (by decide) (by decide) (by decide)

/-- C19, each identifier maps to exactly one kind: for every header at most
one of the five predicates holds, and `isSupportedEvent` holds exactly when
one does; the type of the event that `providerPreProcessor` dispatches is
CreateNewFile for 30, NameDelete for 11, Create for 12, RenamePath for 27 and
DeletePath for 26 (an event is dispatched exactly when the fields of that kind
are extracted); and the five checks leave the same type in whatever order they
are run. -/
theorem each_identifier_one_kind (wstringToString : String → String)
    (rawEvent : EVENT_RECORD) (parser : FieldAccess) :
    List.count true
        [ isSupportedCreateNewFileEvent rawEvent.EventHeader,
          isSupportedNameDeleteEvent rawEvent.EventHeader,
          isSupportedCreateEvent rawEvent.EventHeader,
          isSupportedRenamePathEvent rawEvent.EventHeader,
          isSupportedDeletePathEvent rawEvent.EventHeader ] ≤ 1
    ∧ (isSupportedEvent rawEvent.EventHeader = true ↔
        List.count true
          [ isSupportedCreateNewFileEvent rawEvent.EventHeader,
            isSupportedNameDeleteEvent rawEvent.EventHeader,
            isSupportedCreateEvent rawEvent.EventHeader,
            isSupportedRenamePathEvent rawEvent.EventHeader,
            isSupportedDeletePathEvent rawEvent.EventHeader ] = 1)
    ∧ (rawEvent.EventHeader.EventDescriptorId = 30 →
        (providerPreProcessor wstringToString rawEvent parser).map
            (Option.map (fun e => e.Header.Type_))
          = (parser.parseWString "FileName").map
              (fun _ => some EtwEventType.CreateNewFile))
    ∧ (rawEvent.EventHeader.EventDescriptorId = 11 →
        (providerPreProcessor wstringToString rawEvent parser).map
            (Option.map (fun e => e.Header.Type_))
          = (parser.parseWString "FileName").map
              (fun _ => some EtwEventType.NameDelete))
    ∧ (rawEvent.EventHeader.EventDescriptorId = 12 →
        (providerPreProcessor wstringToString rawEvent parser).map
            (Option.map (fun e => e.Header.Type_))
          = (parser.parseWString "FileName").bind (fun _ =>
              (parser.parsePointer "FileObject").map
                (fun _ => some EtwEventType.Create)))
    ∧ (rawEvent.EventHeader.EventDescriptorId = 27 →
        (providerPreProcessor wstringToString rawEvent parser).map
            (Option.map (fun e => e.Header.Type_))
          = (parser.parseWString "FilePath").bind (fun _ =>
              (parser.parsePointer "FileObject").map
                (fun _ => some EtwEventType.RenamePath)))
    ∧ (rawEvent.EventHeader.EventDescriptorId = 26 →
        (providerPreProcessor wstringToString rawEvent parser).map
            (Option.map (fun e => e.Header.Type_))
          = (parser.parseWString "FilePath").map
              (fun _ => some EtwEventType.DeletePath))
    ∧ (∀ e : EtwEventData,
        providerPreProcessor wstringToString rawEvent parser = some (some e) →
        e.Header.Type_ = assignedType typeChecks rawEvent.EventHeader)
    ∧ (∀ checks : List ((EVENT_HEADER → Bool) × EtwEventType),
        checks.Perm typeChecks →
        assignedType checks rawEvent.EventHeader
          = assignedType typeChecks rawEvent.EventHeader) := by
  refine ⟨?_, ?_, ?_, ?_, ?_, ?_, ?_, ?_, ?_⟩
  · simp only [isSupportedCreateNewFileEvent, isSupportedNameDeleteEvent,
      isSupportedCreateEvent, isSupportedRenamePathEvent,
      isSupportedDeletePathEvent, etwNameDeleteID, etwCreateNewFileID,
      etwCreateID, etwRenamePathID, etwDeletePathID]
    by_cases h30 : rawEvent.EventHeader.EventDescriptorId = 30
    · simp [h30]
    by_cases h11 : rawEvent.EventHeader.EventDescriptorId = 11
    · simp [h11]
    by_cases h12 : rawEvent.EventHeader.EventDescriptorId = 12
    · simp [h12]
    by_cases h27 : rawEvent.EventHeader.EventDescriptorId = 27
    · simp [h27]
    by_cases h26 : rawEvent.EventHeader.EventDescriptorId = 26
    · simp [h26]
    simp [h30, h11, h12, h27, h26]
  · simp only [isSupportedEvent, isSupportedCreateNewFileEvent,
      isSupportedNameDeleteEvent, isSupportedCreateEvent,
      isSupportedRenamePathEvent, isSupportedDeletePathEvent, etwNameDeleteID,
      etwCreateNewFileID, etwCreateID, etwRenamePathID, etwDeletePathID]
    by_cases h30 : rawEvent.EventHeader.EventDescriptorId = 30
    · simp [h30]
    by_cases h11 : rawEvent.EventHeader.EventDescriptorId = 11
    · simp [h11]
    by_cases h12 : rawEvent.EventHeader.EventDescriptorId = 12
    · simp [h12]
    by_cases h27 : rawEvent.EventHeader.EventDescriptorId = 27
    · simp [h27]
    by_cases h26 : rawEvent.EventHeader.EventDescriptorId = 26
    · simp [h26]
    simp [h30, h11, h12, h27, h26]
  · intro hid
    rw [providerPreProcessor_id30 wstringToString rawEvent parser hid]
    cases parser.parseWString "FileName" <;> rfl
  · intro hid
    rw [providerPreProcessor_id11 wstringToString rawEvent parser hid]
    cases parser.parseWString "FileName" <;> rfl
  · intro hid
    rw [providerPreProcessor_id12 wstringToString rawEvent parser hid]
    cases parser.parseWString "FileName" <;>
      cases parser.parsePointer "FileObject" <;> rfl
  · intro hid
    rw [providerPreProcessor_id27 wstringToString rawEvent parser hid]
    cases parser.parseWString "FilePath" <;>
      cases parser.parsePointer "FileObject" <;> rfl
  · intro hid
    rw [providerPreProcessor_id26 wstringToString rawEvent parser hid]
    cases parser.parseWString "FilePath" <;> rfl
  · intro e he
    have hassigned : ∀ n, rawEvent.EventHeader.EventDescriptorId = n →
        assignedType typeChecks rawEvent.EventHeader
          = assignedType typeChecks { EventDescriptorId := n } := by
      intro n hn
      simp [assignedType, typeChecks, isSupportedCreateNewFileEvent,
        isSupportedNameDeleteEvent, isSupportedCreateEvent,
        isSupportedRenamePathEvent, isSupportedDeletePathEvent, hn]
    by_cases h30 : rawEvent.EventHeader.EventDescriptorId = 30
    · rw [providerPreProcessor_id30 wstringToString rawEvent parser h30] at he
      rw [hassigned 30 h30]
      cases hp : parser.parseWString "FileName" with
      | none => simp [hp] at he
      | some fileName =>
        simp only [hp, Option.map_some', Option.some.injEq] at he
        subst he
        rfl
    by_cases h11 : rawEvent.EventHeader.EventDescriptorId = 11
    · rw [providerPreProcessor_id11 wstringToString rawEvent parser h11] at he
      rw [hassigned 11 h11]
      cases hp : parser.parseWString "FileName" with
      | none => simp [hp] at he
      | some fileName =>
        simp only [hp, Option.map_some', Option.some.injEq] at he
        subst he
        rfl
    by_cases h12 : rawEvent.EventHeader.EventDescriptorId = 12
    · rw [providerPreProcessor_id12 wstringToString rawEvent parser h12] at he
      rw [hassigned 12 h12]
      cases hp : parser.parseWString "FileName" with
      | none => simp [hp] at he
      | some fileName =>
        cases hq : parser.parsePointer "FileObject" with
        | none => simp [hp, hq] at he
        | some address =>
          simp only [hp, hq, Option.some_bind, Option.map_some',
            Option.some.injEq] at he
          subst he
          rfl
    by_cases h27 : rawEvent.EventHeader.EventDescriptorId = 27
    · rw [providerPreProcessor_id27 wstringToString rawEvent parser h27] at he
      rw [hassigned 27 h27]
      cases hp : parser.parseWString "FilePath" with
      | none => simp [hp] at he
      | some filePath =>
        cases hq : parser.parsePointer "FileObject" with
        | none => simp [hp, hq] at he
        | some address =>
          simp only [hp, hq, Option.some_bind, Option.map_some',
            Option.some.injEq] at he
          subst he
          rfl
    by_cases h26 : rawEvent.EventHeader.EventDescriptorId = 26
    · rw [providerPreProcessor_id26 wstringToString rawEvent parser h26] at he
      rw [hassigned 26 h26]
      cases hp : parser.parseWString "FilePath" with
      | none => simp [hp] at he
      | some filePath =>
        simp only [hp, Option.map_some', Option.some.injEq] at he
        subst he
        rfl
    have hpre := (providerPreProcessor_unsupported wstringToString rawEvent parser
      h30 h11 h12 h27 h26).2
    rw [hpre] at he
    simp at he
  · intro checks hperm
    have hex := typeChecks_exclusive rawEvent.EventHeader
    have hex' : ∀ c ∈ checks, c.1 rawEvent.EventHeader = true →
        c.2 = assignedType typeChecks rawEvent.EventHeader :=
      fun c hc => hex c (hperm.mem_iff.1 hc)
    have hany : checks.any (fun c => c.1 rawEvent.EventHeader)
        = typeChecks.any (fun c => c.1 rawEvent.EventHeader) := by
      rw [Bool.eq_iff_iff]
      simp only [List.any_eq_true]
      exact ⟨fun ⟨c, hc, h⟩ => ⟨c, hperm.mem_iff.1 hc, h⟩,
        fun ⟨c, hc, h⟩ => ⟨c, hperm.mem_iff.2 hc, h⟩⟩
    have h1 : assignedType checks rawEvent.EventHeader
        = if checks.any (fun c => c.1 rawEvent.EventHeader)
          then assignedType typeChecks rawEvent.EventHeader
          else EtwEventType.Invalid :=
      foldl_typeChecks checks rawEvent.EventHeader EtwEventType.Invalid _ hex'
    have h2 : assignedType typeChecks rawEvent.EventHeader
        = if typeChecks.any (fun c => c.1 rawEvent.EventHeader)
          then assignedType typeChecks rawEvent.EventHeader
          else EtwEventType.Invalid :=
      foldl_typeChecks typeChecks rawEvent.EventHeader EtwEventType.Invalid _ hex
    rw [h1, hany]
    exact h2.symm

/-- C19 at a record with identifier 27 and at the five checks run in reverse
order. -/
theorem each_identifier_one_kind_witness :
    (providerPreProcessor id ⟨{ EventDescriptorId := 27, ProcessId := 4 }⟩
        ⟨fun _ => some "\\Device\\HarddiskVolume3\\b.txt", fun _ => some 7⟩).map
        (Option.map (fun e => e.Header.Type_))
      = some (some EtwEventType.RenamePath)
    ∧ assignedType typeChecks.reverse { EventDescriptorId := 27, ProcessId := 4 }
      = assignedType typeChecks { EventDescriptorId := 27, ProcessId := 4 } :=
  ⟨(each_identifier_one_kind id ⟨{ EventDescriptorId := 27, ProcessId := 4 }⟩
      ⟨fun _ => some "\\Device\\HarddiskVolume3\\b.txt", fun _ => some 7⟩
      ).2.2.2.2.2.1 rfl,
   (each_identifier_one_kind id ⟨{ EventDescriptorId := 27, ProcessId := 4 }⟩
      ⟨fun _ => some "\\Device\\HarddiskVolume3\\b.txt", fun _ => some 7⟩
      ).2.2.2.2.2.2.2.2 typeChecks.reverse (List.reverse_perm typeChecks)⟩

/-- An event that `providerPreProcessor` dispatches carries the payload
variant of its type, with a non-null reference. -/
theorem providerPreProcessor_dispatched_tagged (wstringToString : String → String)
    (rawEvent : EVENT_RECORD) (parser : FieldAccess) (e : EtwEventData)
    (he : providerPreProcessor wstringToString rawEvent parser = some (some e)) :
    (e.Header.Type_ = EtwEventType.CreateNewFile
        ∧ ∃ d, e.Payload = .EtwCreateNewFileDataRef (some d))
    ∨ (e.Header.Type_ = EtwEventType.NameDelete
        ∧ ∃ d, e.Payload = .EtwNameDeleteDataRef (some d))
    ∨ (e.Header.Type_ = EtwEventType.Create
        ∧ ∃ d, e.Payload = .EtwCreateDataRef (some d))
    ∨ (e.Header.Type_ = EtwEventType.RenamePath
        ∧ ∃ d, e.Payload = .EtwRenamePathDataRef (some d))
    ∨ (e.Header.Type_ = EtwEventType.DeletePath
        ∧ ∃ d, e.Payload = .EtwDeletePathDataRef (some d)) := by
  by_cases h30 : rawEvent.EventHeader.EventDescriptorId = 30
  · rw [providerPreProcessor_id30 wstringToString rawEvent parser h30] at he
    cases hp : parser.parseWString "FileName" with
    | none => simp [hp] at he
    | some fileName =>
      simp only [hp, Option.map_some', Option.some.injEq] at he
      subst he
      exact Or.inl ⟨rfl, _, rfl⟩
  by_cases h11 : rawEvent.EventHeader.EventDescriptorId = 11
  · rw [providerPreProcessor_id11 wstringToString rawEvent parser h11] at he
    cases hp : parser.parseWString "FileName" with
    | none => simp [hp] at he
    | some fileName =>
      simp only [hp, Option.map_some', Option.some.injEq] at he
      subst he
      exact Or.inr (Or.inl ⟨rfl, _, rfl⟩)
  by_cases h12 : rawEvent.EventHeader.EventDescriptorId = 12
  · rw [providerPreProcessor_id12 wstringToString rawEvent parser h12] at he
    cases hp : parser.parseWString "FileName" with
    | none => simp [hp] at he
    | some fileName =>
      cases hq : parser.parsePointer "FileObject" with
      | none => simp [hp, hq] at he
      | some address =>
        simp only [hp, hq, Option.some_bind, Option.map_some',
          Option.some.injEq] at he
        subst he
        exact Or.inr (Or.inr (Or.inl ⟨rfl, _, rfl⟩))
  by_cases h27 : rawEvent.EventHeader.EventDescriptorId = 27
  · rw [providerPreProcessor_id27 wstringToString rawEvent parser h27] at he
    cases hp : parser.parseWString "FilePath" with
    | none => simp [hp] at he
    | some filePath =>
      cases hq : parser.parsePointer "FileObject" with
      | none => simp [hp, hq] at he
      | some address =>
        simp only [hp, hq, Option.some_bind, Option.map_some',
          Option.some.injEq] at he
        subst he
        exact Or.inr (Or.inr (Or.inr (Or.inl ⟨rfl, _, rfl⟩)))
  by_cases h26 : rawEvent.EventHeader.EventDescriptorId = 26
  · rw [providerPreProcessor_id26 wstringToString rawEvent parser h26] at he
    cases hp : parser.parseWString "FilePath" with
    | none => simp [hp] at he
    | some filePath =>
      simp only [hp, Option.map_some', Option.some.injEq] at he
      subst he
      exact Or.inr (Or.inr (Or.inr (Or.inr ⟨rfl, _, rfl⟩)))
  have hpre := (providerPreProcessor_unsupported wstringToString rawEvent parser
    h30 h11 h12 h27 h26).2
  rw [hpre] at he
  simp at he

/-- C20, parsed events are well-tagged and fully populated: for a record with
a recognized identifier whose required fields are extracted,
`providerPreProcessor` dispatches the event whose header holds the kind of the
identifier and the raw header, and whose payload is the non-null variant of
that kind with the process id and time stamp of the raw header, the converted
path (and the handle, for Create and RenamePath) and `UserDataReady` set; and
`providerPostProcessor` does not drop a dispatched event: it fires it, or, for
a Create event, passes it to `addToMap`. -/
theorem providerPreProcessor_well_tagged (wstringToString : String → String)
    (rawEvent : EVENT_RECORD) (parser : FieldAccess) :
    (∀ fileName : String,
      rawEvent.EventHeader.EventDescriptorId = 30 →
      parser.parseWString "FileName" = some fileName →
      providerPreProcessor wstringToString rawEvent parser = some (some
        { Header :=
            { RawHeader := rawEvent.EventHeader
              Type_ := EtwEventType.CreateNewFile }
          Payload := .EtwCreateNewFileDataRef (some
            { ProcessId := rawEvent.EventHeader.ProcessId
              EventTime :=
                { dwLowDateTime := rawEvent.EventHeader.TimeStampLowPart
                  dwHighDateTime := rawEvent.EventHeader.TimeStampHighPart }
              FileName := wstringToString fileName
              UserDataReady := true }) }))
    ∧ (∀ fileName : String,
      rawEvent.EventHeader.EventDescriptorId = 11 →
      parser.parseWString "FileName" = some fileName →
      providerPreProcessor wstringToString rawEvent parser = some (some
        { Header :=
            { RawHeader := rawEvent.EventHeader
              Type_ := EtwEventType.NameDelete }
          Payload := .EtwNameDeleteDataRef (some
            { ProcessId := rawEvent.EventHeader.ProcessId
              EventTime :=
                { dwLowDateTime := rawEvent.EventHeader.TimeStampLowPart
                  dwHighDateTime := rawEvent.EventHeader.TimeStampHighPart }
              FileName := wstringToString fileName
              UserDataReady := true }) }))
    ∧ (∀ (fileName : String) (address : Nat),
      rawEvent.EventHeader.EventDescriptorId = 12 →
      parser.parseWString "FileName" = some fileName →
      parser.parsePointer "FileObject" = some address →
      providerPreProcessor wstringToString rawEvent parser = some (some
        { Header :=
            { RawHeader := rawEvent.EventHeader
              Type_ := EtwEventType.Create }
          Payload := .EtwCreateDataRef (some
            { ProcessId := rawEvent.EventHeader.ProcessId
              EventTime :=
                { dwLowDateTime := rawEvent.EventHeader.TimeStampLowPart
                  dwHighDateTime := rawEvent.EventHeader.TimeStampHighPart }
              FileName := wstringToString fileName
              FileObj := address
              UserDataReady := true }) }))
    ∧ (∀ (filePath : String) (address : Nat),
      rawEvent.EventHeader.EventDescriptorId = 27 →
      parser.parseWString "FilePath" = some filePath →
      parser.parsePointer "FileObject" = some address →
      providerPreProcessor wstringToString rawEvent parser = some (some
        { Header :=
            { RawHeader := rawEvent.EventHeader
              Type_ := EtwEventType.RenamePath }
          Payload := .EtwRenamePathDataRef (some
            { ProcessId := rawEvent.EventHeader.ProcessId
              EventTime :=
                { dwLowDateTime := rawEvent.EventHeader.TimeStampLowPart
                  dwHighDateTime := rawEvent.EventHeader.TimeStampHighPart }
              OldFilePath := ""
              RenamedFilePath := wstringToString filePath
              FileObj := address
              UserDataReady := true }) }))
    ∧ (∀ filePath : String,
      rawEvent.EventHeader.EventDescriptorId = 26 →
      parser.parseWString "FilePath" = some filePath →
      providerPreProcessor wstringToString rawEvent parser = some (some
        { Header :=
            { RawHeader := rawEvent.EventHeader
              Type_ := EtwEventType.DeletePath }
          Payload := .EtwDeletePathDataRef (some
            { ProcessId := rawEvent.EventHeader.ProcessId
              EventTime :=
                { dwLowDateTime := rawEvent.EventHeader.TimeStampLowPart
                  dwHighDateTime := rawEvent.EventHeader.TimeStampHighPart }
              FilePath := wstringToString filePath
              UserDataReady := true }) }))
    ∧ (∀ (e : EtwEventData) (drives : HardVolumeDriveCollection)
        (s : PublisherState),
      providerPreProcessor wstringToString rawEvent parser = some (some e) →
      (∃ e' : EtwEventData, providerPostProcessor drives s e
          = some { g_cacheFilePath := s.g_cacheFilePath
                   fired := s.fired ++ [e'] })
      ∨ (∃ d : EtwCreateData,
          e.Header.Type_ = EtwEventType.Create
          ∧ e.Payload = .EtwCreateDataRef (some d)
          ∧ providerPostProcessor drives s e
            = (s.g_cacheFilePath.addToMap d.FileObj
                (updateHardVolumeWithLogicalDrive drives d.FileName)).map
              (fun cache => { s with g_cacheFilePath := cache }))) := by
  refine ⟨?_, ?_, ?_, ?_, ?_, ?_⟩
  · intro fileName hid hp
    rw [providerPreProcessor_id30 wstringToString rawEvent parser hid, hp]
    rfl
  · intro fileName hid hp
    rw [providerPreProcessor_id11 wstringToString rawEvent parser hid, hp]
    rfl
  · intro fileName address hid hp hq
    rw [providerPreProcessor_id12 wstringToString rawEvent parser hid, hp,
      Option.some_bind, hq]
    rfl
  · intro filePath address hid hp hq
    rw [providerPreProcessor_id27 wstringToString rawEvent parser hid, hp,
      Option.some_bind, hq]
    rfl
  · intro filePath hid hp
    rw [providerPreProcessor_id26 wstringToString rawEvent parser hid, hp]
    rfl
  · intro e drives s he
    rcases providerPreProcessor_dispatched_tagged wstringToString rawEvent parser
      e he with ⟨hT, d, hP⟩ | ⟨hT, d, hP⟩ | ⟨hT, d, hP⟩ | ⟨hT, d, hP⟩ | ⟨hT, d, hP⟩
    · exact Or.inl ⟨_, providerPostProcessor_createNewFile drives s e d hT hP⟩
    · exact Or.inl ⟨_, providerPostProcessor_nameDelete drives s e d hT hP⟩
    · exact Or.inr ⟨d, hT, hP, providerPostProcessor_create drives s e d hT hP⟩
    · exact Or.inl ⟨_, providerPostProcessor_renamePath drives s e d hT hP⟩
    · exact Or.inl ⟨_, providerPostProcessor_deletePath drives s e d hT hP⟩

/-- C20 at a Create record (identifier 12) from process 4 with time stamp
parts 7 and 9, file name "\Device\HarddiskVolume3\a.txt" and file object
0xABCD. -/
theorem providerPreProcessor_well_tagged_witness :
    providerPreProcessor id
        ⟨{ EventDescriptorId := 12, ProcessId := 4, TimeStampLowPart := 7
           TimeStampHighPart := 9 }⟩
        ⟨fun _ => some "\\Device\\HarddiskVolume3\\a.txt", fun _ => some 0xABCD⟩
      = some (some
        { Header :=
            { RawHeader :=
                { EventDescriptorId := 12, ProcessId := 4, TimeStampLowPart := 7
                  TimeStampHighPart := 9 }
              Type_ := EtwEventType.Create }
          Payload := .EtwCreateDataRef (some
            { ProcessId := 4
              EventTime := { dwLowDateTime := 7, dwHighDateTime := 9 }
              FileName := "\\Device\\HarddiskVolume3\\a.txt"
              FileObj := 0xABCD
              UserDataReady := true }) }) :=
  (providerPreProcessor_well_tagged id
    ⟨{ EventDescriptorId := 12, ProcessId := 4, TimeStampLowPart := 7
       TimeStampHighPart := 9 }⟩
    ⟨fun _ => some "\\Device\\HarddiskVolume3\\a.txt", fun _ => some 0xABCD⟩
    ).2.2.1 "\\Device\\HarddiskVolume3\\a.txt" 0xABCD rfl rfl rfl

/-! ## Theorems about extraction failures in `providerPreProcessor` -/

/-- C21 as stated, field extraction failure is record-local, fails: for a
Create record (identifier 12) whose "FileName" is extracted and whose
"FileObject" is not, `providerPreProcessor` neither drops the record nor
forwards an event: the failure of the parser leaves the function. -/
theorem providerPreProcessor_extraction_failure_escapes :
    providerPreProcessor id ⟨{ EventDescriptorId := 12, ProcessId := 4 }⟩
        ⟨fun _ => some "\\Device\\HarddiskVolume3\\a.txt", fun _ => none⟩ = none
    ∧ ¬ (∃ outcome : Option EtwEventData,
          providerPreProcessor id ⟨{ EventDescriptorId := 12, ProcessId := 4 }⟩
            ⟨fun _ => some "\\Device\\HarddiskVolume3\\a.txt", fun _ => none⟩
          = some outcome) := by
  have h : providerPreProcessor id ⟨{ EventDescriptorId := 12, ProcessId := 4 }⟩
      ⟨fun _ => some "\\Device\\HarddiskVolume3\\a.txt", fun _ => none⟩ = none :=
    by decide
  refine ⟨h, ?_⟩
  rintro ⟨outcome, ho⟩
  rw [h] at ho
  cases ho

/-- C21 amended: `providerPreProcessor` does not handle a failed extraction.
For a record with a recognized identifier it returns to its caller exactly
when every required field of the kind is extracted ("FileName" for 30 and 11,
"FileName" and "FileObject" for 12, "FilePath" and "FileObject" for 27,
"FilePath" for 26), and then it forwards an event; when an extraction fails
the failure leaves the function and no event is forwarded. It never drops a
record with a recognized identifier. -/
theorem providerPreProcessor_returns_iff_fields_extracted
    (wstringToString : String → String) (rawEvent : EVENT_RECORD)
    (parser : FieldAccess) :
    (rawEvent.EventHeader.EventDescriptorId = 30 →
      (providerPreProcessor wstringToString rawEvent parser = none
        ↔ parser.parseWString "FileName" = none)
      ∧ providerPreProcessor wstringToString rawEvent parser ≠ some none)
    ∧ (rawEvent.EventHeader.EventDescriptorId = 11 →
      (providerPreProcessor wstringToString rawEvent parser = none
        ↔ parser.parseWString "FileName" = none)
      ∧ providerPreProcessor wstringToString rawEvent parser ≠ some none)
    ∧ (rawEvent.EventHeader.EventDescriptorId = 12 →
      (providerPreProcessor wstringToString rawEvent parser = none
        ↔ (parser.parseWString "FileName" = none
            ∨ parser.parsePointer "FileObject" = none))
      ∧ providerPreProcessor wstringToString rawEvent parser ≠ some none)
    ∧ (rawEvent.EventHeader.EventDescriptorId = 27 →
      (providerPreProcessor wstringToString rawEvent parser = none
        ↔ (parser.parseWString "FilePath" = none
            ∨ parser.parsePointer "FileObject" = none))
      ∧ providerPreProcessor wstringToString rawEvent parser ≠ some none)
    ∧ (rawEvent.EventHeader.EventDescriptorId = 26 →
      (providerPreProcessor wstringToString rawEvent parser = none
        ↔ parser.parseWString "FilePath" = none)
      ∧ providerPreProcessor wstringToString rawEvent parser ≠ some none) := by
  refine ⟨?_, ?_, ?_, ?_, ?_⟩
  · intro hid
    rw [providerPreProcessor_id30 wstringToString rawEvent parser hid]
    cases parser.parseWString "FileName" <;> simp
  · intro hid
    rw [providerPreProcessor_id11 wstringToString rawEvent parser hid]
    cases parser.parseWString "FileName" <;> simp
  · intro hid
    rw [providerPreProcessor_id12 wstringToString rawEvent parser hid]
    cases parser.parseWString "FileName" <;>
      cases parser.parsePointer "FileObject" <;> simp
  · intro hid
    rw [providerPreProcessor_id27 wstringToString rawEvent parser hid]
    cases parser.parseWString "FilePath" <;>
      cases parser.parsePointer "FileObject" <;> simp
  · intro hid
    rw [providerPreProcessor_id26 wstringToString rawEvent parser hid]
    cases parser.parseWString "FilePath" <;> simp

/-- C21 amended, at a RenamePath record (identifier 27) whose "FilePath" is
not extracted. -/
theorem providerPreProcessor_returns_iff_fields_extracted_witness :
    (providerPreProcessor id ⟨{ EventDescriptorId := 27, ProcessId := 4 }⟩
        ⟨fun _ => none, fun _ => some 7⟩ = none
      ↔ ((fun _ => none : String → Option String) "FilePath" = none
          ∨ (fun _ => some 7 : String → Option Nat) "FileObject" = none))
    ∧ providerPreProcessor id ⟨{ EventDescriptorId := 27, ProcessId := 4 }⟩
        ⟨fun _ => none, fun _ => some 7⟩ ≠ some none :=
  (providerPreProcessor_returns_iff_fields_extracted id
    ⟨{ EventDescriptorId := 27, ProcessId := 4 }⟩
    ⟨fun _ => none, fun _ => some 7⟩).2.2.2.1 rfl

/-! ## Theorems about interleavings and about the recency vector -/

/-- The two steps of `retrievePath`, run without another thread in between,
are the call `retrievePath`. -/
theorem stepRetrievePath_twice (c : CacheFilePath) (mutex : Bool)
    (put : AddToMapAt) (fileobj : Nat) (path : String) :
    stepRetrievePath fileobj path
        (stepRetrievePath fileobj path ⟨c, mutex, put, RetrievePathAt.atFind⟩)
      = ⟨(c.retrievePath fileobj path).1, mutex, put,
          RetrievePathAt.returned (c.retrievePath fileobj path).2⟩ := by
  cases hf : (c._fileobj_map.find fileobj).isNone <;>
    simp [stepRetrievePath, CacheFilePath.retrievePath, hf]

/-- The three steps of `addToMap`, started with the lock free and run without
another thread in between, are the call `addToMap`. -/
theorem stepAddToMap_thrice (c : CacheFilePath) (get : RetrievePathAt)
    (fileobj : Nat) (path : String) :
    ((stepAddToMap fileobj path ⟨c, false, AddToMapAt.atLock, get⟩).bind
        (fun t => (stepAddToMap fileobj path t).bind (stepAddToMap fileobj path)))
      = (c.addToMap fileobj path).map
          (fun c' => ⟨c', false, AddToMapAt.returned, get⟩) := by
  cases hput : c.addToMap fileobj path <;> simp [stepAddToMap, hput]

/-- C22, cache accesses are serialized. The code breaks it: `retrievePath`
takes no lock. On the cache of capacity 2 that stores 1 -> "a" and 2 -> "b",
a thread runs `retrievePath(1)` and a thread runs `addToMap(3, "c")`. After the
`find` of the first, the second takes the lock and runs its body, which evicts
handle 1; while the second still holds the lock, the first runs
`_fileobj_map[1]`, which inserts handle 1 with the empty path. The first
returns the empty path and the map is left with three entries, one of them a
handle that is not in the recency vector; in both serial orders the map ends
with the two entries of 2 and 3. -/
theorem retrievePath_runs_inside_locked_addToMap :
    runSchedule 3 "c" 1 "junk"
        ⟨⟨2, [(1, "a"), (2, "b")], [1, 2]⟩, false, AddToMapAt.atLock,
          RetrievePathAt.atFind⟩
        [Thread.get, Thread.put, Thread.put]
      = some ⟨⟨2, [(2, "b"), (3, "c")], [2, 3]⟩, true, AddToMapAt.atUnlock,
          RetrievePathAt.atIndex⟩
    ∧ stepRetrievePath 1 "junk"
        ⟨⟨2, [(2, "b"), (3, "c")], [2, 3]⟩, true, AddToMapAt.atUnlock,
          RetrievePathAt.atIndex⟩
      = ⟨⟨2, [(2, "b"), (3, "c"), (1, "")], [2, 3]⟩, true, AddToMapAt.atUnlock,
          RetrievePathAt.returned ""⟩
    ∧ runSchedule 3 "c" 1 "junk"
        ⟨⟨2, [(1, "a"), (2, "b")], [1, 2]⟩, false, AddToMapAt.atLock,
          RetrievePathAt.atFind⟩
        [Thread.get, Thread.put, Thread.put, Thread.get, Thread.put]
      = some ⟨⟨2, [(2, "b"), (3, "c"), (1, "")], [2, 3]⟩, false,
          AddToMapAt.returned, RetrievePathAt.returned ""⟩
    ∧ runSchedule 3 "c" 1 "junk"
        ⟨⟨2, [(1, "a"), (2, "b")], [1, 2]⟩, false, AddToMapAt.atLock,
          RetrievePathAt.atFind⟩
        [Thread.get, Thread.get, Thread.put, Thread.put, Thread.put]
      = some ⟨⟨2, [(2, "b"), (3, "c")], [2, 3]⟩, false, AddToMapAt.returned,
          RetrievePathAt.returned "a"⟩
    ∧ runSchedule 3 "c" 1 "junk"
        ⟨⟨2, [(1, "a"), (2, "b")], [1, 2]⟩, false, AddToMapAt.atLock,
          RetrievePathAt.atFind⟩
        [Thread.put, Thread.put, Thread.put, Thread.get, Thread.get]
      = some ⟨⟨2, [(2, "b"), (3, "c")], [2, 3]⟩, false, AddToMapAt.returned,
          RetrievePathAt.returned ""⟩ := by
  refine ⟨by decide, by decide, by decide, by decide, by decide⟩

/-- C25, eviction never reads an empty queue: in every state reachable with a
capacity of at least one, every key of the map occurs in the recency vector,
the vector is not empty whenever the at-capacity test of `addToMap` holds, and
`addToMap` has a defined result; with capacity 0 the first put on the empty
cache reaches `front()` on an empty vector. -/
theorem addToMap_front_defined :
    (∀ (C : Nat) (c : CacheFilePath), 1 ≤ C → CacheFilePath.Reachable C c →
      (∀ k, (c._fileobj_map.find k).isSome = true → k ∈ c._fileobj_vec)
      ∧ (c._max_size ≤ c._fileobj_map.size → c._fileobj_vec ≠ [])
      ∧ ∀ (h : Nat) (p : String), ∃ c', c.addToMap h p = some c')
    ∧ (∀ (h : Nat) (p : String),
        (CacheFilePath.new 0)._max_size ≤ (CacheFilePath.new 0)._fileobj_map.size
        ∧ (CacheFilePath.new 0)._fileobj_vec = []
        ∧ (CacheFilePath.new 0).addToMap h p = none) := by
  refine ⟨fun C c hC hr => ?_, fun h p => ⟨by decide, rfl, rfl⟩⟩
  obtain ⟨hmax, hinv⟩ := hr.keys_in_vec
  refine ⟨hinv, fun hfull hvec => ?_, fun h p => hr.addToMap_isSome hC h p⟩
  cases hm : c._fileobj_map with
  | nil =>
    rw [hm, hmax] at hfull
    simp [FileObjMap.size] at hfull
    omega
  | cons e m =>
    obtain ⟨k0, v0⟩ := e
    have hmem := hinv k0 (by simp [hm, FileObjMap.find])
    rw [hvec] at hmem
    cases hmem

/-- C25 at the state reached with capacity 2 by put(1,"a"), put(2,"b"),
put(2,"c"), put(3,"x"), put(4,"y"), whose recency vector 2, 3, 4 holds more
than the keys 3, 4 of the map. -/
theorem addToMap_front_defined_witness :
    (∀ k, (FileObjMap.find [(3, "x"), (4, "y")] k).isSome = true → k ∈ [2, 3, 4])
    ∧ ((2 : Nat) ≤ FileObjMap.size [(3, "x"), (4, "y")] → [2, 3, 4] ≠ ([] : List Nat))
    ∧ ∀ (h : Nat) (p : String),
        ∃ c', CacheFilePath.addToMap ⟨2, [(3, "x"), (4, "y")], [2, 3, 4]⟩ h p
          = some c' :=
  addToMap_front_defined.1 2 ⟨2, [(3, "x"), (4, "y")], [2, 3, 4]⟩ (by decide)
    ⟨[(1, "a"), (2, "b"), (2, "c"), (3, "x"), (4, "y")], by decide⟩

/-! ## Supporting lemmas: puts of distinct handles -/

namespace CacheFilePath

/-- A handle that is not a key is not found. -/
theorem find_eq_none_of_not_mem_keys (m : FileObjMap) (k : Nat)
    (hk : k ∉ m.keys) : FileObjMap.find m k = none := by
  induction m with
  | nil => rfl
  | cons e m ih =>
    obtain ⟨k0, v0⟩ := e
    simp only [FileObjMap.keys, List.map_cons, List.mem_cons, not_or] at hk
    have hne : ¬ k0 = k := fun h => hk.1 h.symm
    simp only [FileObjMap.find, hne, if_false]
    exact ih hk.2

/-- Erasing a handle that is not a key changes nothing. -/
theorem erase_eq_self_of_not_mem_keys (m : FileObjMap) (k : Nat)
    (hk : k ∉ m.keys) : FileObjMap.erase m k = m := by
  induction m with
  | nil => rfl
  | cons e m ih =>
    obtain ⟨k0, v0⟩ := e
    simp only [FileObjMap.keys, List.map_cons, List.mem_cons, not_or] at hk
    have hne : k0 ≠ k := fun h => hk.1 h.symm
    rw [erase_cons_of_ne _ _ _ _ hne, ih hk.2]

/-- With distinct keys, each pair of the map is found. -/
theorem find_of_mem_of_nodup (m : FileObjMap) (h : Nat) (p : String)
    (hd : m.keys.Nodup) (hmem : (h, p) ∈ m) : FileObjMap.find m h = some p := by
  induction m with
  | nil => cases hmem
  | cons e m ih =>
    obtain ⟨k0, v0⟩ := e
    simp only [FileObjMap.keys, List.map_cons, List.nodup_cons] at hd
    simp only [List.mem_cons, Prod.mk.injEq] at hmem
    rcases hmem with ⟨hk, hv⟩ | hmem
    · simp [FileObjMap.find, hk, hv]
    · have hne : ¬ k0 = h := by
        intro heq
        exact hd.1 (heq ▸ List.mem_map_of_mem Prod.fst hmem)
      simp only [FileObjMap.find, hne, if_false]
      exact ih hd.2 hmem

/-- Puts of pairwise distinct handles on the empty cache keep the last
`C` calls, in call order, in the map and in the recency vector. -/
theorem addAll_distinct (C : Nat) (hC : 1 ≤ C) (calls : List (Nat × String))
    (hd : (calls.map Prod.fst).Nodup) :
    addAll (new C) calls
      = some ⟨C, calls.drop (calls.length - C),
          (calls.drop (calls.length - C)).map Prod.fst⟩ := by
  induction calls using List.reverseRecOn with
  | nil => simp [addAll, new]
  | append_singleton init x ih =>
    obtain ⟨h, p⟩ := x
    rw [List.map_append, List.nodup_append] at hd
    obtain ⟨hdi, -, hdisj⟩ := hd
    have hnot : h ∉ init.map Prod.fst := fun hmem =>
      hdisj hmem (by simp)
    rw [addAll_append, ih hdi]
    simp only [Option.some_bind, addAll, Option.bind_eq_bind]
    have hsub : (init.drop (init.length - C)).map Prod.fst ⊆ init.map Prod.fst :=
      fun k hk => (List.map_subset Prod.fst (List.drop_subset _ _)) hk
    have hfind : FileObjMap.find (init.drop (init.length - C)) h = none :=
      find_eq_none_of_not_mem_keys _ _ (fun hk => hnot (hsub hk))
    by_cases hlt : init.length < C
    · have h0 : init.length - C = 0 := by omega
      have h1 : (init ++ [(h, p)]).length - C = 0 := by
        simp only [List.length_append, List.length_singleton]; omega
      rw [h0] at hfind
      rw [h0, h1]
      simp only [List.drop_zero] at hfind ⊢
      have hsz : ¬ C ≤ FileObjMap.size init := by
        simp only [FileObjMap.size]; omega
      simp [addToMap, hsz, hfind, FileObjMap.insert]
    · have hlen : (init.drop (init.length - C)).length = C := by
        rw [List.length_drop]; omega
      have hsz : C ≤ FileObjMap.size (init.drop (init.length - C)) := by
        simp only [FileObjMap.size, hlen, Nat.le_refl]
      have hdrop : (init ++ [(h, p)]).drop ((init ++ [(h, p)]).length - C)
          = (init.drop (init.length - C)).drop 1 ++ [(h, p)] := by
        have e1 : (init ++ [(h, p)]).length - C = init.length - C + 1 := by
          simp only [List.length_append, List.length_singleton]; omega
        rw [e1, List.drop_append_of_le_length (by omega), List.drop_drop]
      rw [hdrop]
      have hdD : ((init.drop (init.length - C)).map Prod.fst).Nodup :=
        (hdi.sublist ((List.drop_sublist _ _).map Prod.fst))
      cases hD : init.drop (init.length - C) with
      | nil => rw [hD] at hlen; simp at hlen; omega
      | cons e tl =>
        obtain ⟨f, v⟩ := e
        rw [hD] at hsz hfind hdD
        simp only [List.map_cons, List.nodup_cons] at hdD
        have herase : FileObjMap.erase ((f, v) :: tl) f = tl := by
          rw [erase_cons_self]
          exact erase_eq_self_of_not_mem_keys tl f hdD.1
        have hfind' : FileObjMap.find tl h = none := by
          have hne : ¬ f = h := by
            intro heq
            simp [FileObjMap.find, heq] at hfind
          simpa [FileObjMap.find, hne] using hfind
        simp [addToMap, hsz, herase, FileObjMap.insert, hfind']

end CacheFilePath

/-- C24, FIFO behaviour on distinct handles: for a capacity of at least one
and a sequence of puts with pairwise distinct handles on the empty cache, the
calls succeed; the map then holds exactly the last min(n, C) calls, each
handle with the path it was put with, every other handle is not found, and the
recency vector lists those handles in call order, oldest first. -/
theorem addToMap_fifo_on_distinct_handles (C : Nat) (hC : 1 ≤ C)
    (calls : List (Nat × String)) (hd : (calls.map Prod.fst).Nodup) :
    ∃ c : CacheFilePath,
      CacheFilePath.addAll (CacheFilePath.new C) calls = some c
      ∧ c._fileobj_map = calls.drop (calls.length - min calls.length C)
      ∧ c._fileobj_vec
          = (calls.drop (calls.length - min calls.length C)).map Prod.fst
      ∧ c._fileobj_map.size = min calls.length C
      ∧ (∀ (h : Nat) (p : String),
          (h, p) ∈ calls.drop (calls.length - min calls.length C) →
          c._fileobj_map.find h = some p)
      ∧ (∀ h : Nat,
          h ∉ (calls.drop (calls.length - min calls.length C)).map Prod.fst →
          c._fileobj_map.find h = none) := by
  have hmin : calls.length - min calls.length C = calls.length - C := by
    rcases Nat.le_total calls.length C with h | h
    · rw [Nat.min_eq_left h]; omega
    · rw [Nat.min_eq_right h]
  rw [hmin]
  have hdD : ((calls.drop (calls.length - C)).map Prod.fst).Nodup :=
    hd.sublist ((List.drop_sublist _ _).map Prod.fst)
  refine ⟨_, CacheFilePath.addAll_distinct C hC calls hd, rfl, rfl, ?_, ?_, ?_⟩
  · simp only [FileObjMap.size, List.length_drop]
    omega
  · intro h p hmem
    exact CacheFilePath.find_of_mem_of_nodup _ h p hdD hmem
  · intro h hnot
    exact CacheFilePath.find_eq_none_of_not_mem_keys _ h hnot

/-- C24 at capacity 2 and the calls put(5,"a"), put(6,"b"), put(7,"c"): the
cache keeps 6 and 7. -/
theorem addToMap_fifo_on_distinct_handles_witness :
    ∃ c : CacheFilePath,
      CacheFilePath.addAll (CacheFilePath.new 2) [(5, "a"), (6, "b"), (7, "c")]
        = some c
      ∧ c._fileobj_map = [(6, "b"), (7, "c")]
      ∧ c._fileobj_vec = [6, 7] := by
  obtain ⟨c, h1, h2, h3, -⟩ := addToMap_fifo_on_distinct_handles 2 (by decide)
    [(5, "a"), (6, "b"), (7, "c")] (by decide)
  exact ⟨c, h1, h2, h3⟩

/-! ## Supporting lemma: the cases of `providerPostProcessor` -/

/-- Either `providerPostProcessor` returns with the state as it was, or the
event has a file kind and the non-null payload variant of that kind. -/
theorem providerPostProcessor_cases (drives : HardVolumeDriveCollection)
    (s : PublisherState) (eventData : EtwEventData) :
    providerPostProcessor drives s eventData = some s
    ∨ (∃ d, eventData.Header.Type_ = EtwEventType.CreateNewFile
        ∧ eventData.Payload = .EtwCreateNewFileDataRef (some d))
    ∨ (∃ d, eventData.Header.Type_ = EtwEventType.NameDelete
        ∧ eventData.Payload = .EtwNameDeleteDataRef (some d))
    ∨ (∃ d, eventData.Header.Type_ = EtwEventType.Create
        ∧ eventData.Payload = .EtwCreateDataRef (some d))
    ∨ (∃ d, eventData.Header.Type_ = EtwEventType.RenamePath
        ∧ eventData.Payload = .EtwRenamePathDataRef (some d))
    ∨ (∃ d, eventData.Header.Type_ = EtwEventType.DeletePath
        ∧ eventData.Payload = .EtwDeletePathDataRef (some d)) := by
  obtain ⟨header, payload⟩ := eventData
  cases hT : header.Type_ <;> cases payload <;>
    first
    | (left; simp [providerPostProcessor, hT]; done)
    | (rename_i ref; cases ref <;> simp [providerPostProcessor, hT])

/-! ## Theorems about what `providerPostProcessor` changes -/

/-- C23, dispatch changes only path fields: when `providerPostProcessor`
returns, either it fired nothing, or it fired one event whose header is the
header of the input event and whose payload is the input payload with the same
process id, event time, file object and `UserDataReady`, the path replaced by
its normalized form and, for RenamePath, the old path set from the cache. -/
theorem providerPostProcessor_changes_only_paths
    (drives : HardVolumeDriveCollection) (s s' : PublisherState)
    (eventData : EtwEventData)
    (hpost : providerPostProcessor drives s eventData = some s') :
    s'.fired = s.fired
    ∨ ∃ e' : EtwEventData, s'.fired = s.fired ++ [e']
      ∧ e'.Header = eventData.Header
      ∧ ((∃ d d' : EtwCreateNewFileData,
            eventData.Payload = .EtwCreateNewFileDataRef (some d)
            ∧ e'.Payload = .EtwCreateNewFileDataRef (some d')
            ∧ d'.ProcessId = d.ProcessId ∧ d'.EventTime = d.EventTime
            ∧ d'.UserDataReady = d.UserDataReady
            ∧ d'.FileName = updateHardVolumeWithLogicalDrive drives d.FileName)
        ∨ (∃ d d' : EtwNameDeleteData,
            eventData.Payload = .EtwNameDeleteDataRef (some d)
            ∧ e'.Payload = .EtwNameDeleteDataRef (some d')
            ∧ d'.ProcessId = d.ProcessId ∧ d'.EventTime = d.EventTime
            ∧ d'.UserDataReady = d.UserDataReady
            ∧ d'.FileName = updateHardVolumeWithLogicalDrive drives d.FileName)
        ∨ (∃ d d' : EtwRenamePathData,
            eventData.Payload = .EtwRenamePathDataRef (some d)
            ∧ e'.Payload = .EtwRenamePathDataRef (some d')
            ∧ d'.ProcessId = d.ProcessId ∧ d'.EventTime = d.EventTime
            ∧ d'.FileObj = d.FileObj
            ∧ d'.UserDataReady = d.UserDataReady
            ∧ d'.RenamedFilePath
                = updateHardVolumeWithLogicalDrive drives d.RenamedFilePath
            ∧ d'.OldFilePath
                = (s.g_cacheFilePath._fileobj_map.find d.FileObj).getD "")
        ∨ (∃ d d' : EtwDeletePathData,
            eventData.Payload = .EtwDeletePathDataRef (some d)
            ∧ e'.Payload = .EtwDeletePathDataRef (some d')
            ∧ d'.ProcessId = d.ProcessId ∧ d'.EventTime = d.EventTime
            ∧ d'.UserDataReady = d.UserDataReady
            ∧ d'.FilePath = updateHardVolumeWithLogicalDrive drives d.FilePath)) := by
  rcases providerPostProcessor_cases drives s eventData with
    h | ⟨d, hT, hP⟩ | ⟨d, hT, hP⟩ | ⟨d, hT, hP⟩ | ⟨d, hT, hP⟩ | ⟨d, hT, hP⟩
  · rw [h] at hpost
    cases hpost
    exact Or.inl rfl
  · rw [providerPostProcessor_createNewFile drives s eventData d hT hP] at hpost
    cases hpost
    exact Or.inr ⟨_, rfl, rfl, Or.inl ⟨d, _, hP, rfl, rfl, rfl, rfl, rfl⟩⟩
  · rw [providerPostProcessor_nameDelete drives s eventData d hT hP] at hpost
    cases hpost
    exact Or.inr ⟨_, rfl, rfl, Or.inr (Or.inl ⟨d, _, hP, rfl, rfl, rfl, rfl, rfl⟩)⟩
  · rw [providerPostProcessor_create drives s eventData d hT hP] at hpost
    cases hput : s.g_cacheFilePath.addToMap d.FileObj
        (updateHardVolumeWithLogicalDrive drives d.FileName) with
    | none => simp [hput] at hpost
    | some cache =>
      simp only [hput, Option.map_some', Option.some.injEq] at hpost
      subst hpost
      exact Or.inl rfl
  · rw [providerPostProcessor_renamePath drives s eventData d hT hP] at hpost
    cases hpost
    exact Or.inr ⟨_, rfl, rfl, Or.inr (Or.inr (Or.inl
      ⟨d, _, hP, rfl, rfl, rfl, rfl, rfl, rfl, rfl⟩))⟩
  · rw [providerPostProcessor_deletePath drives s eventData d hT hP] at hpost
    cases hpost
    exact Or.inr ⟨_, rfl, rfl, Or.inr (Or.inr (Or.inr
      ⟨d, _, hP, rfl, rfl, rfl, rfl, rfl⟩))⟩

/-- C23 at a RenamePath event with process id 4, event time (7, 9), file
object 7 and `UserDataReady` set, on a cache that stores "D:\a.txt" for 7. -/
theorem providerPostProcessor_changes_only_paths_witness :
    ([] : List EtwEventData) ++
        [{ Header :=
             { Type_ := EtwEventType.RenamePath, TypeInfo := "RenamePath"
               WinTimestamp := 11, UnixTimestamp := 13
               RawHeader := { ProcessId := 4, EventDescriptorId := 27 } }
           Payload := .EtwRenamePathDataRef (some
             { ProcessId := 4, EventTime := ⟨7, 9⟩, FileObj := 7
               UserDataReady := true, OldFilePath := "D:\\a.txt"
               RenamedFilePath := "D:\\b.txt" }) }]
      = []
    ∨ ∃ e' : EtwEventData,
      ([] : List EtwEventData) ++
        [{ Header :=
             { Type_ := EtwEventType.RenamePath, TypeInfo := "RenamePath"
               WinTimestamp := 11, UnixTimestamp := 13
               RawHeader := { ProcessId := 4, EventDescriptorId := 27 } }
           Payload := .EtwRenamePathDataRef (some
             { ProcessId := 4, EventTime := ⟨7, 9⟩, FileObj := 7
               UserDataReady := true, OldFilePath := "D:\\a.txt"
               RenamedFilePath := "D:\\b.txt" }) }]
        = [] ++ [e']
      ∧ e'.Header =
          { Type_ := EtwEventType.RenamePath, TypeInfo := "RenamePath"
            WinTimestamp := 11, UnixTimestamp := 13
            RawHeader := { ProcessId := 4, EventDescriptorId := 27 } } := by
  have h := providerPostProcessor_changes_only_paths
    [("\\Device\\HarddiskVolume3", "D:")]
    ⟨⟨2, [(7, "D:\\a.txt")], [7]⟩, []⟩
    ⟨⟨2, [(7, "D:\\a.txt")], [7]⟩,
      [] ++
        [{ Header :=
             { Type_ := EtwEventType.RenamePath, TypeInfo := "RenamePath"
               WinTimestamp := 11, UnixTimestamp := 13
               RawHeader := { ProcessId := 4, EventDescriptorId := 27 } }
           Payload := .EtwRenamePathDataRef (some
             { ProcessId := 4, EventTime := ⟨7, 9⟩, FileObj := 7
               UserDataReady := true, OldFilePath := "D:\\a.txt"
               RenamedFilePath := "D:\\b.txt" }) }]⟩
    { Header :=
        { Type_ := EtwEventType.RenamePath, TypeInfo := "RenamePath"
          WinTimestamp := 11, UnixTimestamp := 13
          RawHeader := { ProcessId := 4, EventDescriptorId := 27 } }
      Payload := .EtwRenamePathDataRef (some
        { ProcessId := 4, EventTime := ⟨7, 9⟩, FileObj := 7
          UserDataReady := true, OldFilePath := "stale"
          RenamedFilePath := "\\Device\\HarddiskVolume3\\b.txt" }) }
    (by decide)
  rcases h with h | ⟨e', h1, h2, -⟩
  · exact Or.inl h
  · exact Or.inr ⟨e', h1, h2⟩

/-- C26, only Create events mutate the cache: for an event whose kind is not
Create, with any payload, `providerPostProcessor` returns and leaves the cache
(capacity, map and recency order) as it was. -/
theorem providerPostProcessor_cache_unchanged
    (drives : HardVolumeDriveCollection) (s : PublisherState)
    (eventData : EtwEventData)
    (hkind : eventData.Header.Type_ ≠ EtwEventType.Create) :
    ∃ s' : PublisherState,
      providerPostProcessor drives s eventData = some s'
      ∧ s'.g_cacheFilePath = s.g_cacheFilePath := by
  rcases providerPostProcessor_cases drives s eventData with
    h | ⟨d, hT, hP⟩ | ⟨d, hT, hP⟩ | ⟨d, hT, hP⟩ | ⟨d, hT, hP⟩ | ⟨d, hT, hP⟩
  · exact ⟨s, h, rfl⟩
  · exact ⟨_, providerPostProcessor_createNewFile drives s eventData d hT hP, rfl⟩
  · exact ⟨_, providerPostProcessor_nameDelete drives s eventData d hT hP, rfl⟩
  · exact absurd hT hkind
  · exact ⟨_, providerPostProcessor_renamePath drives s eventData d hT hP, rfl⟩
  · exact ⟨_, providerPostProcessor_deletePath drives s eventData d hT hP, rfl⟩

/-- C26 at a RenamePath and a DeletePath event for the stored handle 7: the
entry of 7 is neither removed nor updated. -/
theorem providerPostProcessor_cache_unchanged_witness :
    (∃ s' : PublisherState,
      providerPostProcessor [("\\Device\\HarddiskVolume3", "D:")]
          ⟨⟨2, [(7, "D:\\a.txt")], [7]⟩, []⟩
          { Header := { Type_ := EtwEventType.RenamePath }
            Payload := .EtwRenamePathDataRef (some
              { FileObj := 7
                RenamedFilePath := "\\Device\\HarddiskVolume3\\b.txt" }) }
        = some s'
      ∧ s'.g_cacheFilePath = ⟨2, [(7, "D:\\a.txt")], [7]⟩)
    ∧ (∃ s' : PublisherState,
      providerPostProcessor [("\\Device\\HarddiskVolume3", "D:")]
          ⟨⟨2, [(7, "D:\\a.txt")], [7]⟩, []⟩
          { Header := { Type_ := EtwEventType.DeletePath }
            Payload := .EtwDeletePathDataRef (some
              { FilePath := "\\Device\\HarddiskVolume3\\a.txt" }) }
        = some s'
      ∧ s'.g_cacheFilePath = ⟨2, [(7, "D:\\a.txt")], [7]⟩) :=
  ⟨providerPostProcessor_cache_unchanged _ _ _ (by decide),
   providerPostProcessor_cache_unchanged _ _ _ (by decide)⟩

/-! ## Supporting lemmas: rows -/

namespace Row

/-- A column that no entry names has no value. -/
theorem get_filter_self (row : Row) (column : String) :
    Row.get (row.filter (fun e => decide (e.1 ≠ column))) column = none := by
  induction row with
  | nil => rfl
  | cons e row ih =>
    obtain ⟨c, v⟩ := e
    simp only [ne_eq, decide_not] at ih ⊢
    by_cases hc : c = column
    · simp [List.filter_cons, hc, ih]
    · simp [List.filter_cons, hc, Row.get, ih]

/-- Dropping the entries of a column keeps the value of another column. -/
theorem get_filter_of_ne (row : Row) (column other : String)
    (hne : other ≠ column) :
    Row.get (row.filter (fun e => decide (e.1 ≠ column))) other
      = Row.get row other := by
  induction row with
  | nil => rfl
  | cons e row ih =>
    obtain ⟨c, v⟩ := e
    simp only [ne_eq, decide_not] at ih ⊢
    by_cases hc : c = column
    · have hco : ¬ column = other := fun h => hne h.symm
      simp [List.filter_cons, hc, Row.get, ih, hco]
    · simp [List.filter_cons, hc, Row.get, ih]

/-- The value of a column in a row with one more entry at its end. -/
theorem get_append_single (row : Row) (c v column : String) :
    Row.get (row ++ [(c, v)]) column =
      match Row.get row column with
      | some x => some x
      | none => if c = column then some v else none := by
  induction row with
  | nil => simp [Row.get]
  | cons e row ih =>
    obtain ⟨c0, v0⟩ := e
    by_cases h : c0 = column
    · simp [Row.get, h]
    · simp [Row.get, h, ih]

/-- The value of a column after its assignment. -/
theorem get_set_self (row : Row) (column value : String) :
    Row.get (Row.set row column value) column = some value := by
  unfold Row.set
  rw [get_append_single, get_filter_self]
  simp

/-- The value of a column after the assignment of another column. -/
theorem get_set_of_ne (row : Row) (column value other : String)
    (hne : other ≠ column) :
    Row.get (Row.set row column value) other = Row.get row other := by
  unfold Row.set
  rw [get_append_single, get_filter_of_ne row column other hne]
  have hne' : ¬ column = other := fun h => hne h.symm
  cases Row.get row other <;> simp [hne']

end Row

/-- The outcome of `eventCallback` on a non-null context with non-null data:
either no batch is added, or the status is success and one batch of one row
is added with the time stamp of the header. -/
theorem eventCallback_cases (SQL_TEXT : String → String) (BIGINT : Int → String)
    (batches : List (List Row × Int)) (data : EtwEventData) :
    (eventCallback SQL_TEXT BIGINT batches (some ⟨some data⟩)).2 = batches
    ∨ (∃ row : Row, eventCallback SQL_TEXT BIGINT batches (some ⟨some data⟩)
        = (Status.success, batches ++ [([row], data.Header.UnixTimestamp)])) := by
  obtain ⟨header, payload⟩ := data
  by_cases hpid : SYSTEM_PID = header.RawHeader.ProcessId
  · cases hT : header.Type_ <;> cases payload <;>
      first
      | (left; simp [eventCallback, hpid, hT]; done)
      | (rename_i ref; cases ref
         · left; simp [eventCallback, hpid, hT]
         · right; exact ⟨_, by simp [eventCallback, hpid, hT]; rfl⟩)
  · left
    simp [eventCallback, hpid]

/-! ## Theorems about `EtwQhFileEventSubscriber::eventCallback` -/

/-- The process id is tested before the payload: for a RenamePath event from
process id 5 whose payload is a DeletePath payload, `eventCallback` returns
success and adds no row. -/
theorem eventCallback_mismatch_from_other_process_succeeds :
    eventCallback id (fun _ => "") []
        (some ⟨some
          { Header :=
              { Type_ := EtwEventType.RenamePath
                RawHeader := { ProcessId := 5 } }
            Payload := .EtwDeletePathDataRef (some
              { FilePath := "D:\\a.txt" }) }⟩)
      = (Status.success, [])
    ∧ ¬ (∃ message : String,
          (eventCallback id (fun _ => "") []
            (some ⟨some
              { Header :=
                  { Type_ := EtwEventType.RenamePath
                    RawHeader := { ProcessId := 5 } }
                Payload := .EtwDeletePathDataRef (some
                  { FilePath := "D:\\a.txt" }) }⟩)).1
          = Status.failure message) := by
  refine ⟨by decide, ?_⟩
  rintro ⟨message, h⟩
  have hs : (eventCallback id (fun _ => "") []
        (some ⟨some
          { Header :=
              { Type_ := EtwEventType.RenamePath
                RawHeader := { ProcessId := 5 } }
            Payload := .EtwDeletePathDataRef (some
              { FilePath := "D:\\a.txt" }) }⟩)).1 = Status.success := by decide
  rw [hs] at h
  cases h

/-- C27, the table subscriber records only system-process events: for a
dispatched event with a non-null context, `eventCallback` adds at most one
row; it adds no row and returns success when the process id of the raw header
is not 4 or the kind is none of CreateNewFile, NameDelete, RenamePath,
DeletePath; otherwise (process id 4, one of these four kinds) it adds no row
and returns failure when the payload is not the non-null variant of the kind;
and for a RenamePath event from process id 4 with a matching payload it
returns success and adds one row whose column path is the old path and whose
column new_path is the renamed path (`SQL_TEXT` being the identity). -/
theorem eventCallback_rows (SQL_TEXT : String → String) (BIGINT : Int → String)
    (batches : List (List Row × Int)) (data : EtwEventData)
    (hText : ∀ x, SQL_TEXT x = x) :
    (∃ added : List (List Row × Int),
      (eventCallback SQL_TEXT BIGINT batches (some ⟨some data⟩)).2
        = batches ++ added
      ∧ (added.map (fun batch => batch.1.length)).sum ≤ 1)
    ∧ ((data.Header.RawHeader.ProcessId ≠ 4
          ∨ (data.Header.Type_ ≠ EtwEventType.CreateNewFile
            ∧ data.Header.Type_ ≠ EtwEventType.NameDelete
            ∧ data.Header.Type_ ≠ EtwEventType.RenamePath
            ∧ data.Header.Type_ ≠ EtwEventType.DeletePath)) →
        eventCallback SQL_TEXT BIGINT batches (some ⟨some data⟩)
          = (Status.success, batches))
    ∧ (data.Header.RawHeader.ProcessId = 4 →
        data.Header.Type_ = EtwEventType.CreateNewFile →
        (∀ d, data.Payload ≠ .EtwCreateNewFileDataRef (some d)) →
        ∃ message, eventCallback SQL_TEXT BIGINT batches (some ⟨some data⟩)
          = (Status.failure message, batches))
    ∧ (data.Header.RawHeader.ProcessId = 4 →
        data.Header.Type_ = EtwEventType.NameDelete →
        (∀ d, data.Payload ≠ .EtwNameDeleteDataRef (some d)) →
        ∃ message, eventCallback SQL_TEXT BIGINT batches (some ⟨some data⟩)
          = (Status.failure message, batches))
    ∧ (data.Header.RawHeader.ProcessId = 4 →
        data.Header.Type_ = EtwEventType.RenamePath →
        (∀ d, data.Payload ≠ .EtwRenamePathDataRef (some d)) →
        ∃ message, eventCallback SQL_TEXT BIGINT batches (some ⟨some data⟩)
          = (Status.failure message, batches))
    ∧ (data.Header.RawHeader.ProcessId = 4 →
        data.Header.Type_ = EtwEventType.DeletePath →
        (∀ d, data.Payload ≠ .EtwDeletePathDataRef (some d)) →
        ∃ message, eventCallback SQL_TEXT BIGINT batches (some ⟨some data⟩)
          = (Status.failure message, batches))
    ∧ (∀ d : EtwRenamePathData,
        data.Header.RawHeader.ProcessId = 4 →
        data.Header.Type_ = EtwEventType.RenamePath →
        data.Payload = .EtwRenamePathDataRef (some d) →
        ∃ row : Row,
          eventCallback SQL_TEXT BIGINT batches (some ⟨some data⟩)
            = (Status.success, batches ++ [([row], data.Header.UnixTimestamp)])
          ∧ Row.get row "path" = some d.OldFilePath
          ∧ Row.get row "new_path" = some d.RenamedFilePath) := by
  refine ⟨?_, ?_, ?_, ?_, ?_, ?_, ?_⟩
  · rcases eventCallback_cases SQL_TEXT BIGINT batches data with h | ⟨row, h⟩
    · exact ⟨[], by rw [h, List.append_nil], by simp⟩
    · exact ⟨[([row], data.Header.UnixTimestamp)], by rw [h], by simp⟩
  · obtain ⟨header, payload⟩ := data
    rintro (hpid | ⟨h1, h2, h3, h4⟩)
    · have hpid' : ¬ SYSTEM_PID = header.RawHeader.ProcessId :=
        fun h => hpid h.symm
      simp [eventCallback, hpid']
    · simp only at h1 h2 h3 h4
      by_cases hpid : SYSTEM_PID = header.RawHeader.ProcessId
      · simp [eventCallback, hpid, h1, h2, h3, h4]
      · simp [eventCallback, hpid]
  all_goals
    obtain ⟨header, payload⟩ := data
  · intro hpid hT hP
    have hpid' : SYSTEM_PID = header.RawHeader.ProcessId := hpid.symm
    simp only at hT hP
    cases payload <;>
      first
      | exact ⟨_, by simp [eventCallback, hpid', hT]; rfl⟩
      | (rename_i ref; cases ref
         · exact ⟨_, by simp [eventCallback, hpid', hT]; rfl⟩
         · exact absurd rfl (hP _))
  · intro hpid hT hP
    have hpid' : SYSTEM_PID = header.RawHeader.ProcessId := hpid.symm
    simp only at hT hP
    cases payload <;>
      first
      | exact ⟨_, by simp [eventCallback, hpid', hT]; rfl⟩
      | (rename_i ref; cases ref
         · exact ⟨_, by simp [eventCallback, hpid', hT]; rfl⟩
         · exact absurd rfl (hP _))
  · intro hpid hT hP
    have hpid' : SYSTEM_PID = header.RawHeader.ProcessId := hpid.symm
    simp only at hT hP
    cases payload <;>
      first
      | exact ⟨_, by simp [eventCallback, hpid', hT]; rfl⟩
      | (rename_i ref; cases ref
         · exact ⟨_, by simp [eventCallback, hpid', hT]; rfl⟩
         · exact absurd rfl (hP _))
  · intro hpid hT hP
    have hpid' : SYSTEM_PID = header.RawHeader.ProcessId := hpid.symm
    simp only at hT hP
    cases payload <;>
      first
      | exact ⟨_, by simp [eventCallback, hpid', hT]; rfl⟩
      | (rename_i ref; cases ref
         · exact ⟨_, by simp [eventCallback, hpid', hT]; rfl⟩
         · exact absurd rfl (hP _))
  · intro d hpid hT hP
    have hpid' : SYSTEM_PID = header.RawHeader.ProcessId := hpid.symm
    simp only at hT hP
    subst hP
    refine ⟨_, by simp [eventCallback, hpid', hT]; rfl, ?_, ?_⟩
    · rw [Row.get_set_self, hText]
    · rw [Row.get_set_of_ne _ _ _ _ (by decide), Row.get_set_self, hText]

/-- C27 at a RenamePath event from process id 4 with old path
"D:\a.txt" and renamed path "D:\b.txt". -/
theorem eventCallback_rows_witness :
    ∃ row : Row,
      eventCallback id (fun _ => "") []
          (some ⟨some
            { Header :=
                { Type_ := EtwEventType.RenamePath, TypeInfo := "RenamePath"
                  UnixTimestamp := 13
                  RawHeader := { ProcessId := 4, EventDescriptorId := 27 } }
              Payload := .EtwRenamePathDataRef (some
                { ProcessId := 4, FileObj := 7, OldFilePath := "D:\\a.txt"
                  RenamedFilePath := "D:\\b.txt" }) }⟩)
        = (Status.success, [] ++ [([row], 13)])
      ∧ Row.get row "path" = some "D:\\a.txt"
      ∧ Row.get row "new_path" = some "D:\\b.txt" :=
  (eventCallback_rows id (fun _ => "") []
    { Header :=
        { Type_ := EtwEventType.RenamePath, TypeInfo := "RenamePath"
          UnixTimestamp := 13
          RawHeader := { ProcessId := 4, EventDescriptorId := 27 } }
      Payload := .EtwRenamePathDataRef (some
        { ProcessId := 4, FileObj := 7, OldFilePath := "D:\\a.txt"
          RenamedFilePath := "D:\\b.txt" }) }
    (fun _ => rfl)).2.2.2.2.2.2
    { ProcessId := 4, FileObj := 7, OldFilePath := "D:\\a.txt"
      RenamedFilePath := "D:\\b.txt" }
    rfl rfl rfl

end osquery
